import Mathlib

/-!
# eigenpy: the Eigen / NumPy bridge of `src/eigenpy.hpp`

A shallow embedding of the header and the properties of its converters.

Modelling conventions.

* A native type `MatType` is `Eigen::Matrix<Scalar, Rows, Cols, Options>` with
  `MaxRows = Rows` and `MaxCols = Cols`; of the options only the storage order matters
  here.  Every type `enableEigenPy` registers is column-major.  In
  `enableEigenPySpecific<MatType, E>` the two template arguments are the same type
  everywhere in the source, and are one `MatType` here.
* Eigen itself is not part of the source.  Three of its rules are modelled: the constructor
  of `Eigen::Map` requires run-time extents that agree with the fixed extents of the mapped
  type; an assignment to a view requires a source of the same shape; an assignment to a
  plain value gives the value the shape of the source.
* Values of type `npy_intp` and Eigen's `Index` are integers (extents are `Nat`, byte
  strides are `Int`).  A value stored in a C `int` is converted by `toInt`, which wraps
  modulo 2^32 into the range of a 32-bit `int`.  C integer division is `Int.tdiv`
  (truncation towards zero).
* The memory behind `PyArray_DATA` is a function from the byte offset (relative to the data
  pointer) to the scalar stored there.  Element values are an abstract type `α`: the bridge
  only copies them.
* A call has one of three results: it returns, it throws `eigenpy::exception`, or its
  behaviour is not defined (a failed `assert` / `eigen_assert`, a read outside the
  `dimensions` array, a null or mistyped pointer, a division by zero).
-/

namespace eigenpy

/-! ## Constants of the two libraries -/

/-- Eigen's marker `Eigen::Dynamic` for an extent that is not fixed at compile time. -/
def Dynamic : Int := -1

/-- The conversion of an integer to a C `int` of 32 bits, as in `const int R = ...`: the
value modulo 2^32 in the range from -2^31 to 2^31 - 1. -/
def toInt (x : Int) : Int := (x + 2147483648) % 4294967296 - 2147483648

/-- The integer is in the range of a C `int`. -/
def InIntRange (x : Int) : Prop := -2147483648 ≤ x ∧ x < 2147483648

instance (x : Int) : Decidable (InIntRange x) := by
  unfold InIntRange
  infer_instance

/-- The scalar types for which `NumpyEquivalentType` is specialised (lines 87-89). -/
inductive Scalar where
  | double
  | int
  | float
  deriving DecidableEq, Repr

/-- NumPy's type number `NPY_INT`. -/
def NPY_INT : Int := 5

/-- NumPy's type number `NPY_FLOAT` (32-bit float). -/
def NPY_FLOAT : Int := 11

/-- NumPy's type number `NPY_DOUBLE` (64-bit float). -/
def NPY_DOUBLE : Int := 12

/-- NumPy's flag bit `NPY_ALIGNED`. -/
def NPY_ALIGNED : Nat := 0x0100

/-- The enum `NumpyEquivalentType<SCALAR>::type_code` (lines 86-89). -/
def NumpyEquivalentType.type_code : Scalar → Int
  | .double => NPY_DOUBLE
  | .int => NPY_INT
  | .float => NPY_FLOAT

/-- The value of `sizeof(T)` in bytes for the three scalar types. -/
def Scalar.size : Scalar → Int
  | .double => 8
  | .int => 4
  | .float => 4

/-! ## Native types -/

/-- The type `Eigen::Matrix<Scalar, RowsAtCompileTime, ColsAtCompileTime, Options>`; an
extent is a fixed number or `Dynamic`, and `IsRowMajor` is the storage order the options
select (Eigen's default is column-major; a row vector type is row-major). -/
structure MatType where
  Scalar : Scalar
  RowsAtCompileTime : Int
  ColsAtCompileTime : Int
  IsRowMajor : Bool
  deriving DecidableEq, Repr

/-- Eigen's `MatType::IsVectorAtCompileTime`: one of the two extents is fixed to 1. -/
def MatType.IsVectorAtCompileTime (T : MatType) : Bool :=
  decide (T.RowsAtCompileTime = 1) || decide (T.ColsAtCompileTime = 1)

/-- Eigen's `MatType::MaxSizeAtCompileTime`: `Dynamic` when an extent is dynamic, else the
product of the two extents. -/
def MatType.MaxSizeAtCompileTime (T : MatType) : Int :=
  if T.RowsAtCompileTime = Dynamic ∨ T.ColsAtCompileTime = Dynamic then Dynamic
  else T.RowsAtCompileTime * T.ColsAtCompileTime

/-- The run-time shape `(rows, cols)` is one a value or a view of type `T` can have: every
fixed extent of `T` is met. -/
def MatType.Admits (T : MatType) (rows cols : Nat) : Prop :=
  (T.RowsAtCompileTime = Dynamic ∨ T.RowsAtCompileTime = rows) ∧
  (T.ColsAtCompileTime = Dynamic ∨ T.ColsAtCompileTime = cols)

instance (T : MatType) (rows cols : Nat) : Decidable (T.Admits rows cols) := by
  unfold MatType.Admits
  infer_instance

/-- A native dense value: its run-time shape and its coefficients. -/
structure Mat (α : Type) where
  rows : Nat
  cols : Nat
  coeff : Nat → Nat → α

/-! ## Foreign objects -/

/-- The fields of a NumPy array object that the bridge reads. -/
structure PyArrayObject (α : Type) where
  data : Int → α
  dimensions : List Nat
  strides : List Int
  itemsize : Int
  type_num : Int
  flags : Nat

/-- A Python object: a NumPy array or anything else. -/
inductive PyObject (α : Type) where
  | other
  | array (a : PyArrayObject α)

/-- NumPy's `PyArray_NDIM`. -/
def PyArray_NDIM {α : Type} (a : PyArrayObject α) : Nat := a.dimensions.length

/-- NumPy's `PyArray_DIMS(a)[k]`; `none` outside the array of extents. -/
def PyArray_DIMS {α : Type} (a : PyArrayObject α) (k : Nat) : Option Nat := a.dimensions[k]?

/-- NumPy's `PyArray_STRIDE(a, k)`, in bytes; `none` outside the array of strides. -/
def PyArray_STRIDE {α : Type} (a : PyArrayObject α) (k : Nat) : Option Int := a.strides[k]?

/-- NumPy's `PyArray_ITEMSIZE`. -/
def PyArray_ITEMSIZE {α : Type} (a : PyArrayObject α) : Int := a.itemsize

/-- NumPy's `PyArray_FLAGS`. -/
def PyArray_FLAGS {α : Type} (a : PyArrayObject α) : Nat := a.flags

/-- NumPy's `PyArray_ObjectType(obj, 0)` on an array: the type number of its elements. -/
def PyArray_ObjectType {α : Type} (a : PyArrayObject α) : Int := a.type_num

/-- NumPy's own addressing: the element of index `(i, j)` of a 2-dimensional array lies
`i * strides[0] + j * strides[1]` bytes after the data pointer. -/
def PyArrayObject.getitem2 {α : Type} (a : PyArrayObject α) (i j : Nat) : Option α :=
  match a.strides with
  | [s0, s1] => some (a.data ((i : Int) * s0 + (j : Int) * s1))
  | _ => none

/-- NumPy's own addressing of a 1-dimensional array: element `k` lies `k * strides[0]`
bytes after the data pointer. -/
def PyArrayObject.getitem1 {α : Type} (a : PyArrayObject α) (k : Nat) : Option α :=
  match a.strides with
  | [s0] => some (a.data ((k : Int) * s0))
  | _ => none

/-- C-contiguous byte strides for a shape, as `PyArray_SimpleNew` lays a new array out. -/
def contiguousStrides (itemsize : Int) : List Nat → List Int
  | [] => []
  | _ :: ds => (itemsize * ((ds.prod : Nat) : Int)) :: contiguousStrides itemsize ds

/-- NumPy's `PyArray_SimpleNew(nd, shape, type_code)` when the allocation succeeds: a
C-contiguous, aligned array of the given shape over fresh memory `raw`, whose contents are
whatever the allocator returned. -/
def PyArray_SimpleNew {α : Type} (shape : List Nat) (T : Scalar) (raw : Int → α) :
    PyArrayObject α :=
  { data := raw
    dimensions := shape
    strides := contiguousStrides T.size shape
    itemsize := T.size
    type_num := NumpyEquivalentType.type_code T
    flags := 0x0505 }

/-! ## Results and exceptions -/

/-- The class `eigenpy::exception` (lines 38-57): it carries a message. -/
structure exception where
  message : String
  deriving DecidableEq, Repr

/-- The result of a call: a value, a thrown `eigenpy::exception`, or no defined behaviour
(failed assertion, invalid read). -/
inductive Result (β : Type) where
  | ok (val : β)
  | raise (e : exception)
  | undefined
  deriving DecidableEq

/-! ## Strided views -/

/-- Eigen's `Stride<Dynamic, Dynamic>`: the pair (outer, inner), in elements. -/
structure Stride where
  outer : Int
  inner : Int
  deriving DecidableEq, Repr

/-- Eigen's `InnerStride<Dynamic>(v)`, which is `Stride<0, Dynamic>(0, v)`. -/
def InnerStride (v : Int) : Stride := ⟨0, v⟩

/-- An `Eigen::Map<MatType, 0, Stride>` over the data pointer of an array: a shape and a
stride.  No memory is owned. -/
structure EigenMap where
  rows : Nat
  cols : Nat
  stride : Stride
  deriving DecidableEq, Repr

/-- The constructor `EigenMap(pyData, rows, cols, stride)`, called with two `int` values.
Eigen requires the run-time extents to be non-negative and to agree with the fixed extents
of the mapped type (`eigen_assert` in `MapBase`); the rows and columns of a `Map<MatType>`
whose extent is fixed are that fixed extent. -/
def EigenMap.create (T : MatType) (rows cols : Int) (stride : Stride) : Result EigenMap :=
  if 0 ≤ rows ∧ 0 ≤ cols ∧ T.Admits rows.toNat cols.toNat then
    .ok ⟨rows.toNat, cols.toNat, stride⟩
  else .undefined

/-- Offset, in elements from the data pointer, of coefficient `(i, j)` of a view.  For a
column-major type the inner stride separates rows and the outer stride separates columns;
for a row-major type the outer stride separates rows and the inner stride separates
columns. -/
def EigenMap.offset (m : EigenMap) (rowMajor : Bool) (i j : Nat) : Int :=
  if rowMajor then (i : Int) * m.stride.outer + (j : Int) * m.stride.inner
  else (i : Int) * m.stride.inner + (j : Int) * m.stride.outer

/-- The element `pyData[k]` for `T* pyData = reinterpret_cast<T*>(PyArray_DATA(pyArray))`:
the scalar `k * sizeof(T)` bytes after the data pointer. -/
def pyData {α : Type} (T : Scalar) (mem : Int → α) (k : Int) : α := mem (k * T.size)

/-- Coefficient `(i, j)` read through a view of type `Map<T>`. -/
def EigenMap.coeff {α : Type} (m : EigenMap) (T : MatType) (mem : Int → α) (i j : Nat) : α :=
  pyData T.Scalar mem (m.offset T.IsRowMajor i j)

/-! ## The view builder (lines 91-153) -/

/-- The function `MapNumpyTraits<MatType,0>::mapImpl` (lines 99-118), the 2-D layout.
The result is not defined when the `assert` on the number of dimensions fails, when an
extent or a stride is read outside its array, or when the item size is 0 (the divisions of
lines 106-107 precede the two shape checks).  The extents and the two quotients are stored
in `const int`.  `Stride(stride2, stride1)` is `Stride(outer, inner)`. -/
def MapNumpyTraits0.mapImpl {α : Type} (T : MatType) (pyArray : PyArrayObject α) :
    Result EigenMap :=
  if PyArray_NDIM pyArray ≠ 2 then .undefined
  else
    match PyArray_DIMS pyArray 0, PyArray_DIMS pyArray 1,
        PyArray_STRIDE pyArray 0, PyArray_STRIDE pyArray 1 with
    | some d0, some d1, some s0, some s1 =>
      let R := toInt d0
      let C := toInt d1
      let itemsize := PyArray_ITEMSIZE pyArray
      if itemsize = 0 then .undefined
      else
        let stride1 := toInt (Int.tdiv s0 itemsize)
        let stride2 := toInt (Int.tdiv s1 itemsize)
        if T.RowsAtCompileTime ≠ R ∧ T.RowsAtCompileTime ≠ Dynamic then
          .raise ⟨"The number of rows does not fit with the matrix type."⟩
        else if T.ColsAtCompileTime ≠ C ∧ T.ColsAtCompileTime ≠ Dynamic then
          .raise ⟨"The number of columns does not fit with the matrix type."⟩
        else EigenMap.create T R C ⟨stride2, stride1⟩
    | _, _, _, _ => .undefined

/-- The local `rowMajor` of `MapNumpyTraits<MatType,1>::mapImpl` (lines 132-134): the
dimension of the array that the vector runs along; `none` when an extent is read outside
the array of extents. -/
def MapNumpyTraits1.rowMajor {α : Type} (pyArray : PyArrayObject α) : Option Nat :=
  if PyArray_NDIM pyArray = 1 then some 0
  else
    match PyArray_DIMS pyArray 0, PyArray_DIMS pyArray 1 with
    | some d0, some d1 => some (if d0 > d1 then 0 else 1)
    | _, _ => none

/-- The function `MapNumpyTraits<MatType,1>::mapImpl` (lines 128-146), the vector layout.
The result is not defined when the `assert` on the number of dimensions fails, when an
extent or a stride is read outside its array, or when the item size is 0.  The selected
extent and the quotient are stored in `const int`; the two extents are compared as
`npy_intp` values.  The view is always built with the column shape `(R, 1)`. -/
def MapNumpyTraits1.mapImpl {α : Type} (T : MatType) (pyArray : PyArrayObject α) :
    Result EigenMap :=
  if ¬ PyArray_NDIM pyArray ≤ 2 then .undefined
  else
    match MapNumpyTraits1.rowMajor pyArray with
    | none => .undefined
    | some rowMajor =>
      match PyArray_DIMS pyArray rowMajor, PyArray_STRIDE pyArray rowMajor with
      | some d, some s =>
        let R := toInt d
        let itemsize := PyArray_ITEMSIZE pyArray
        if itemsize = 0 then .undefined
        else
          let stride := toInt (Int.tdiv s itemsize)
          if T.MaxSizeAtCompileTime ≠ R ∧ T.MaxSizeAtCompileTime ≠ Dynamic then
            .raise ⟨"The number of elements does not fit with the vector type."⟩
          else EigenMap.create T R 1 (InnerStride stride)
      | _, _ => .undefined

/-- The function `MapNumpy<MatType>::map` (lines 149-153): the implementation is selected by
`MatType::IsVectorAtCompileTime`. -/
def MapNumpy.map {α : Type} (T : MatType) (pyArray : PyArrayObject α) : Result EigenMap :=
  if T.IsVectorAtCompileTime then MapNumpyTraits1.mapImpl T pyArray
  else MapNumpyTraits0.mapImpl T pyArray

/-! ## Assignment through and from a view -/

/-- One store `pyData[k] = x` through the typed data pointer. -/
def store {α : Type} (T : Scalar) (mem : Int → α) (k : Int) (x : α) : Int → α :=
  Function.update mem (k * T.size) x

/-- The coefficients a view assignment stores, in Eigen's traversal order (column by column
for a column-major destination, row by row for a row-major one): the element offset and the
value. -/
def assignments {α : Type} (m : EigenMap) (rowMajor : Bool) (src : Mat α) : List (Int × α) :=
  if rowMajor then
    (List.range m.rows).flatMap fun i =>
      (List.range m.cols).map fun j => (m.offset rowMajor i j, src.coeff i j)
  else
    (List.range m.cols).flatMap fun j =>
      (List.range m.rows).map fun i => (m.offset rowMajor i j, src.coeff i j)

/-- The stores of a list of assignments, one after the other. -/
def storeAll {α : Type} (T : Scalar) (mem : Int → α) (l : List (Int × α)) : Int → α :=
  l.foldl (fun mem p => store T mem p.1 p.2) mem

/-- The assignment `view = mat` of a native value to a view.  A view cannot be resized:
Eigen requires the two shapes to be equal (`eigen_assert` in the assignment); the
coefficients are then stored through the view in one pass. -/
def EigenMap.assign {α : Type} (m : EigenMap) (T : MatType) (mem : Int → α) (src : Mat α) :
    Result (Int → α) :=
  if m.rows = src.rows ∧ m.cols = src.cols then
    .ok (storeAll T.Scalar mem (assignments m T.IsRowMajor src))
  else .undefined

/-- The assignment `eigenMatrix = numpyMap` of a view to a native value of the same type:
the destination takes the shape of the view (a shape its type admits, as the view has that
type) and every coefficient of that shape is read through the view.  Coefficients outside
the shape do not exist; the function keeps the old value there. -/
def Mat.assignMap {α : Type} (dst : Mat α) (m : EigenMap) (T : MatType) (mem : Int → α) :
    Mat α :=
  { rows := m.rows
    cols := m.cols
    coeff := fun i j => if i < m.rows ∧ j < m.cols then m.coeff T mem i j else dst.coeff i j }

/-! ## To Python (lines 155-172) -/

/-- The function `EigenToPy::convert` (lines 159-171).  The extents of the value are stored
in `const int`.  The argument `alloc` is the memory `PyArray_SimpleNew` obtained, `none`
when the allocation failed; `PyArray_SimpleNew` also fails on a negative extent.  Its null
result is not checked and is dereferenced. -/
def EigenToPy.convert {α : Type} (T : MatType) (mat : Mat α) (alloc : Option (Int → α)) :
    Result (PyArrayObject α) :=
  let R := toInt mat.rows
  let C := toInt mat.cols
  match alloc with
  | none => .undefined
  | some raw =>
    if R < 0 ∨ C < 0 then .undefined
    else
      let pyArray := PyArray_SimpleNew [R.toNat, C.toNat] T.Scalar raw
      match MapNumpy.map T pyArray with
      | .raise e => .raise e
      | .undefined => .undefined
      | .ok view =>
        match view.assign T pyArray.data mat with
        | .raise e => .raise e
        | .undefined => .undefined
        | .ok mem => .ok { pyArray with data := mem }

/-! ## From Python (lines 174-275) -/

/-- The extent a constructor of `MatType` gives to one direction: the fixed extent of the
type, or the run-time size when the extent is dynamic. -/
def MatType.extent (fixed : Int) (dim : Nat) : Nat :=
  if fixed = Dynamic then dim else fixed.toNat

/-- The struct `TraitsMatrixConstructor<MatType, ROWS, COLS>` (lines 177-211): the
specialisation is selected by the two compile-time extents, and calls `MatType(r,c)`,
`MatType(c)`, `MatType(r)` or `MatType()`.  The one-argument constructor of Eigen gives
its size to the dynamic extent: shape `(1, c)` for a row-vector type, `(r, 1)` for a
column-vector type (Eigen provides it for vector types only).  The value is placed in raw
storage and its coefficients are not initialised: they are `uninit`, the previous contents
of the storage. -/
def TraitsMatrixConstructor.construct {α : Type} (T : MatType) (uninit : Nat → Nat → α)
    (r c : Nat) : Mat α :=
  if T.RowsAtCompileTime = Dynamic ∧ T.ColsAtCompileTime = Dynamic then
    ⟨r, c, uninit⟩
  else if T.ColsAtCompileTime = Dynamic then
    ⟨MatType.extent T.RowsAtCompileTime c, MatType.extent T.ColsAtCompileTime c, uninit⟩
  else if T.RowsAtCompileTime = Dynamic then
    ⟨MatType.extent T.RowsAtCompileTime r, MatType.extent T.ColsAtCompileTime r, uninit⟩
  else
    ⟨T.RowsAtCompileTime.toNat, T.ColsAtCompileTime.toNat, uninit⟩

/-- The diagnostics of `convertible`, written to `std::cerr`. -/
def msgNotArray : String := "The python object is not a numpy array."

/-- The diagnostic of the dimension check. -/
def msgDimension : String := "The number of dimension of the object is not correct."

/-- The diagnostic of the element type check. -/
def msgType : String := "The internal type as no Eigen equivalent."

/-- The diagnostic of the alignment check. -/
def msgAligned : String := "NPY non-aligned matrices are not implemented."

/-- The function `EigenFromPy::convertible` (lines 224-254): the pointer it returns (`none`
is the null pointer) and the lines it writes to `std::cerr`. -/
def EigenFromPy.convertible {α : Type} (T : MatType) (obj_ptr : PyObject α) :
    Option (PyObject α) × List String :=
  match obj_ptr with
  | .other => (none, [msgNotArray])
  | .array a =>
    if PyArray_NDIM a ≠ 2 ∧ (PyArray_NDIM a ≠ 1 ∨ ¬ T.IsVectorAtCompileTime) then
      (none, [msgDimension])
    else if PyArray_ObjectType a ≠ NumpyEquivalentType.type_code T.Scalar then
      (none, [msgType])
    else if PyArray_FLAGS a &&& NPY_ALIGNED = 0 then
      (none, [msgAligned])
    else (some obj_ptr, [])

/-- A pointer value of `memory->convertible`: null, the Python object (as the dispatcher
leaves it after `convertible`), or the address of the storage. -/
inductive Ptr where
  | null
  | object
  | storage
  deriving DecidableEq, Repr

/-- The record `rvalue_from_python_storage<MatType>` that `construct` receives: the field
`convertible` and the storage bytes, which hold no value (`none`) or a constructed native
value. -/
structure rvalue_from_python_data (α : Type) where
  convertible : Ptr
  storage : Option (Mat α)

/-- The raw contents of the storage bytes, read as coefficients: unspecified values. -/
abbrev Raw (α : Type) := Nat → Nat → α

/-- The function `EigenFromPy::construct` (lines 257-274): its result and the record
`memory` after the call.  The argument `uninit` is the raw contents of the storage.  The
extents of the view were built from `int` values, so `int r = numpyMap.rows()` keeps
them. -/
def EigenFromPy.construct {α : Type} (T : MatType) (pyObj : PyObject α)
    (memory : rvalue_from_python_data α) (uninit : Raw α) :
    Result Unit × rvalue_from_python_data α :=
  match pyObj with
  | .other => (.undefined, memory)
  | .array pyArray =>
    match MapNumpy.map T pyArray with
    | .raise e => (.raise e, memory)
    | .undefined => (.undefined, memory)
    | .ok numpyMap =>
      let r := numpyMap.rows
      let c := numpyMap.cols
      let eigenMatrix := TraitsMatrixConstructor.construct T uninit r c
      let memory1 := { memory with storage := some eigenMatrix }
      let memory2 := { memory1 with convertible := Ptr.storage }
      (.ok (), { memory2 with
        storage := some (eigenMatrix.assignMap numpyMap T pyArray.data) })

/-! ## The exception bridge (lines 38-57 and 286-305) -/

/-- The constructor `exception()`: the message is empty. -/
def exception.new : exception := ⟨""⟩

/-- The constructor `exception(std::string msg)`. -/
def exception.ofMessage (msg : String) : exception := ⟨msg⟩

/-- The method `getMessage`. -/
def exception.getMessage (e : exception) : String := e.message

/-- The method `copyMessage`. -/
def exception.copyMessage (e : exception) : String := e.getMessage

/-- The C string that the pointer `s.c_str()` denotes to a reader of a `const char*`: the
characters of `s` before its first NUL character. -/
def c_str (s : String) : String :=
  String.mk (s.data.takeWhile fun ch => decide (ch ≠ Char.ofNat 0))

/-- The method `what`, which returns `getMessage().c_str()`. -/
def exception.what (e : exception) : String := c_str e.getMessage

/-- The Python class that `boost::python::class_<eigenpy::exception>` creates: its name, its
`init<std::string>` and its properties, each with the accessor bound to it. -/
structure PyClass where
  name : String
  init : String → exception
  properties : List (String × (exception → String))

/-- The function `exception::registerException` (lines 296-305): the value it stores in the
static `pyType`, which is null before the call. -/
def exception.registerException : PyClass :=
  { name := "exception"
    init := exception.ofMessage
    properties := [("message", exception.copyMessage)] }

/-- The Python error indicator after `PyErr_SetObject(type, value)`; the value made by
`boost::python::object(e)` is an instance of the class that holds a copy of `e`. -/
structure PyErr where
  excType : PyClass
  excValue : exception

/-- The function `exception::translateException` (lines 289-294), given the static
`pyType`; the `assert` fails while `pyType` is null. -/
def exception.translateException (pyType : Option PyClass) (e : exception) : Result PyErr :=
  match pyType with
  | none => .undefined
  | some t => .ok ⟨t, e⟩

/-- Reading a property of the value of a Python exception: the accessor bound to the name
is applied to the wrapped native value. -/
def PyErr.getattr (err : PyErr) (name : String) : Option String :=
  (err.excType.properties.lookup name).map fun accessor => accessor err.excValue

/-! ## Notions of the specification -/

/-- The length the vector layout selects, in the words of the specification: the extent of
a 1-dimensional descriptor, the larger of the two extents of a 2-dimensional one. -/
def selectedLength : List Nat → Nat
  | [e0] => e0
  | [e0, e1] => max e0 e1
  | _ => 0

/-- The byte stride the vector layout selects, in the words of the specification: that of
the only dimension, or of the dimension with the larger extent (dimension 1 when the two
extents are equal, as `rowMajor` decides). -/
def selectedStride : List Nat → List Int → Int
  | [_], [s0] => s0
  | [e0, e1], [s0, s1] => if e0 > e1 then s0 else s1
  | _, _ => 0

/-! ## Sample types and objects -/

/-- The type `Eigen::MatrixXd` (column-major). -/
def MatrixXd : MatType := ⟨Scalar.double, Dynamic, Dynamic, false⟩

/-- The type `Eigen::Matrix3d`. -/
def Matrix3d : MatType := ⟨Scalar.double, 3, 3, false⟩

/-- The type `Eigen::VectorXd`, the dynamically sized (column) vector. -/
def VectorXd : MatType := ⟨Scalar.double, Dynamic, 1, false⟩

/-- The type `Eigen::Vector3d`. -/
def Vector3d : MatType := ⟨Scalar.double, 3, 1, false⟩

/-- The type `Eigen::RowVectorXd`, the dynamically sized row vector. -/
def RowVectorXd : MatType := ⟨Scalar.double, 1, Dynamic, true⟩

/-- A memory in which the scalar at byte offset `b` is the number `b`. -/
def sampleMemory : Int → Int := fun b => b

/-- The slice `base[::2, ::2]` of a C-contiguous 4 x 6 array of doubles: shape (2, 3), byte
strides (96, 16). -/
def slicedArray : PyArrayObject Int :=
  { data := sampleMemory
    dimensions := [2, 3]
    strides := [96, 16]
    itemsize := 8
    type_num := NPY_DOUBLE
    flags := 0x0500 }

/-- A fresh C-contiguous 2 x 2 array of doubles over the sample memory. -/
def array22 : PyArrayObject Int := PyArray_SimpleNew [2, 2] Scalar.double sampleMemory

/-- A fresh C-contiguous 1 x 2 array of doubles over the sample memory. -/
def array12 : PyArrayObject Int := PyArray_SimpleNew [1, 2] Scalar.double sampleMemory

/-- A fresh C-contiguous 0 x 1 array of doubles: the array `EigenToPy::convert` allocates
for a column vector of length 0. -/
def array01 : PyArrayObject Int := PyArray_SimpleNew [0, 1] Scalar.double sampleMemory

/-- The type `Eigen::Matrix<s, Dynamic, 1>`: the dynamically sized vector of scalar `s`. -/
def VectorX (s : Scalar) : MatType := ⟨s, Dynamic, 1, false⟩

/-- The array `array22` without the aligned flag. -/
def unalignedArray22 : PyArrayObject Int := { array22 with flags := 0 }

/-- Raw storage whose bytes read as the coefficient 0 everywhere. -/
def zeroRaw : Raw Int := fun _ _ => 0

/-- The record `memory` as the dispatcher passes it: `convertible` holds the object, the
storage holds no value. -/
def freshMemory : rvalue_from_python_data Int := ⟨Ptr.object, none⟩

/-- An observed extent of the descriptor conflicts with a fixed compile-time dimension of
the target type, in the words of the specification: for a 2-dimensional descriptor the row
count is fixed and differs from `extent[0]`, or the column count is fixed and differs from
`extent[1]`; for a 1-dimensional descriptor the size of the type is fixed and differs from
the extent. -/
def ExtentConflict (T : MatType) (dims : List Nat) : Prop :=
  match dims with
  | [e0, e1] =>
    (T.RowsAtCompileTime ≠ Dynamic ∧ T.RowsAtCompileTime ≠ e0) ∨
      (T.ColsAtCompileTime ≠ Dynamic ∧ T.ColsAtCompileTime ≠ e1)
  | [e0] => T.MaxSizeAtCompileTime ≠ Dynamic ∧ T.MaxSizeAtCompileTime ≠ e0
  | _ => False

/-- A 1 x 5 array of doubles over the sample memory, with byte strides (40, 8). -/
def rowArray5 : PyArrayObject Int :=
  { data := sampleMemory
    dimensions := [1, 5]
    strides := [40, 8]
    itemsize := 8
    type_num := NPY_DOUBLE
    flags := 0x0501 }

/-- A 5 x 1 view of the same five doubles: byte strides (8, 8). -/
def colArray5 : PyArrayObject Int :=
  { data := sampleMemory
    dimensions := [5, 1]
    strides := [8, 8]
    itemsize := 8
    type_num := NPY_DOUBLE
    flags := 0x0501 }

/-- The value of an `Eigen::VectorXd` with no element: shape (0, 1). -/
def emptyVector : Mat Int := ⟨0, 1, zeroRaw⟩

/-- The value of an `Eigen::RowVectorXd` with the two elements 7 and 9: shape (1, 2). -/
def rowVector2 : Mat Int := ⟨1, 2, fun _ j => if j = 0 then 7 else 9⟩

/-- A native 3 x 5 matrix: the coefficient `(i, j)` is `10 * i + j`. -/
def matrix35 : Mat Int := ⟨3, 5, fun i j => 10 * (i : Int) + (j : Int)⟩

/-- The type `Eigen::Matrix<s, Dynamic, Dynamic>`: the fully dynamic, column-major matrix of
scalar `s`. -/
def MatrixX (s : Scalar) : MatType := ⟨s, Dynamic, Dynamic, false⟩

/-- A fresh C-contiguous 0 x 3 array of doubles: a buffer with no element. -/
def array03 : PyArrayObject Int := PyArray_SimpleNew [0, 3] Scalar.double sampleMemory

/-- The message made of the characters `a`, NUL, `b`. -/
def nulMessage : String := String.mk ['a', Char.ofNat 0, 'b']

/-- The logical 2 x 3 matrix of `slicedArray` laid out in column-major (Fortran) order in a
memory of its own: the element `(i, j)` lies at byte `8 * (i + 2 * j)` and holds the value
the slice holds at `(i, j)`, which is `96 * i + 16 * j`. -/
def fortranArray : PyArrayObject Int :=
  { data := fun b => 96 * ((b / 8) % 2) + 16 * ((b / 8) / 2)
    dimensions := [2, 3]
    strides := [8, 16]
    itemsize := 8
    type_num := NPY_DOUBLE
    flags := 0x0502 }

/-- The type `Eigen::Matrix<double, Dynamic, Dynamic, RowMajor>`: a fully dynamic matrix type
with row-major storage. -/
def RowMatrixXd : MatType := ⟨Scalar.double, Dynamic, Dynamic, true⟩

/-- An array of doubles of shape (2^32 + 3, 3) whose rows all alias the same three doubles,
as `numpy.broadcast_to` makes it: byte strides (0, 8). -/
def hugeArray : PyArrayObject Int :=
  { data := sampleMemory
    dimensions := [4294967299, 3]
    strides := [0, 8]
    itemsize := 8
    type_num := NPY_DOUBLE
    flags := 0x0100 }

/-- An array of doubles of shape (2^31, 3) whose rows all alias the same three doubles: byte
strides (0, 8). -/
def hugeArray31 : PyArrayObject Int :=
  { data := sampleMemory
    dimensions := [2147483648, 3]
    strides := [0, 8]
    itemsize := 8
    type_num := NPY_DOUBLE
    flags := 0x0100 }

/-- An array of doubles of shape (1, 2^32 + 3) whose elements all alias one double, which is
0 in the sample memory: byte strides (0, 0). -/
def hugeRow : PyArrayObject Int :=
  { data := sampleMemory
    dimensions := [1, 4294967299]
    strides := [0, 0]
    itemsize := 8
    type_num := NPY_DOUBLE
    flags := 0x0100 }

/-- An array of doubles of shape (2^32 + 3, 2) whose rows all alias the same two doubles:
byte strides (0, 8). -/
def hugeColumns : PyArrayObject Int :=
  { data := sampleMemory
    dimensions := [4294967299, 2]
    strides := [0, 8]
    itemsize := 8
    type_num := NPY_DOUBLE
    flags := 0x0100 }

/-- A fresh C-contiguous 2 x 3 array of doubles over the sample memory. -/
def array23 : PyArrayObject Int := PyArray_SimpleNew [2, 3] Scalar.double sampleMemory

/-! # Properties -/

/-! ## Auxiliary facts -/

theorem and_aligned_eq_zero_iff (n : Nat) : n &&& NPY_ALIGNED = 0 ↔ n.testBit 8 = false := by
  have h : NPY_ALIGNED = 2 ^ 8 := by decide
  rw [h, Nat.and_two_pow]
  cases n.testBit 8 <;> simp

/-! ## The validator -/

/-- C1: `EigenFromPy::convertible` returns the object if and only if the object is a NumPy
array, its number of dimensions is 2 or it is 1 and the target type is a compile-time
vector, its element type code is that of the target scalar, and its aligned flag is set; in
every other case it returns null.  A 32-bit float array is never accepted for a double
target.  The function is total: it has no raising path. -/
theorem convertible_accepts_iff {α : Type} (T : MatType) (obj : PyObject α) :
    ((EigenFromPy.convertible T obj).1 = some obj ↔
      ∃ a, obj = PyObject.array a ∧
        (PyArray_NDIM a = 2 ∨ (PyArray_NDIM a = 1 ∧ T.IsVectorAtCompileTime = true)) ∧
        a.type_num = NumpyEquivalentType.type_code T.Scalar ∧
        a.flags.testBit 8 = true) ∧
    ((EigenFromPy.convertible T obj).1 ≠ some obj → (EigenFromPy.convertible T obj).1 = none) ∧
    (∀ a, obj = PyObject.array a → a.type_num = NPY_FLOAT → T.Scalar = Scalar.double →
      (EigenFromPy.convertible T obj).1 = none) := by
  cases obj with
  | other => simp [EigenFromPy.convertible]
  | array a =>
    have hal := and_aligned_eq_zero_iff a.flags
    refine ⟨?_, ?_, ?_⟩
    · simp only [EigenFromPy.convertible, PyArray_ObjectType, PyArray_FLAGS]
      split_ifs with h1 h2 h3
      · simp only [reduceCtorEq, false_iff, not_exists, not_and]
        intro b hb hd
        cases hb
        rcases hd with hd | ⟨hd, hv⟩
        · exact absurd hd h1.1
        · rcases h1.2 with h | h
          · exact absurd hd h
          · exact absurd hv h
      · simp only [reduceCtorEq, false_iff, not_exists, not_and]
        intro b hb _ ht
        cases hb
        exact absurd ht h2
      · simp only [reduceCtorEq, false_iff, not_exists, not_and]
        intro b hb _ _ hf
        cases hb
        rw [hal.mp h3] at hf
        exact absurd hf (by decide)
      · simp only [true_iff]
        refine ⟨a, rfl, ?_, ?_, ?_⟩
        · by_contra hc
          apply h1
          constructor
          · intro h; exact hc (Or.inl h)
          · by_contra hd
            push_neg at hd
            exact hc (Or.inr ⟨hd.1, by simpa using hd.2⟩)
        · exact not_not.mp h2
        · cases hb : a.flags.testBit 8
          · exact absurd (hal.mpr hb) h3
          · rfl
    · simp only [EigenFromPy.convertible]
      split_ifs <;> simp
    · intro b hb hf hd
      cases hb
      simp only [EigenFromPy.convertible, PyArray_ObjectType, hf, hd,
        NumpyEquivalentType.type_code]
      split_ifs with h1 h2
      · rfl
      · rfl
      · exact absurd (by decide : NPY_FLOAT = NPY_DOUBLE → False) (by simpa using h2)
      · exact absurd (by decide : NPY_FLOAT = NPY_DOUBLE → False) (by simpa using h2)


/-! ## Conversion to `int` -/

/-- The conversion to `int` keeps a value that is in the range of `int`. -/
theorem toInt_of_range (x : Int) (h : InIntRange x) : toInt x = x := by
  unfold InIntRange at h
  unfold toInt
  omega

/-- The conversion to `int` keeps an extent below 2^31. -/
theorem toInt_natCast (e : Nat) (h : e < 2147483648) : toInt (e : Int) = (e : Int) := by
  unfold toInt
  omega

/-- The result of the conversion is in the range of `int`. -/
theorem toInt_range (x : Int) : InIntRange (toInt x) := by
  unfold InIntRange toInt
  omega

/-! ## The view builder -/

theorem Scalar.size_pos (T : Scalar) : 0 < T.size := by
  cases T <;> decide

theorem Scalar.size_ne_zero (T : Scalar) : T.size ≠ 0 :=
  ne_of_gt T.size_pos

/-- The 2-D view builder on a well-formed 2-dimensional descriptor, as one expression. -/
theorem mapImpl0_eq {α : Type} (T : MatType) (a : PyArrayObject α) (e0 e1 : Nat)
    (s0 s1 : Int) (hd : a.dimensions = [e0, e1]) (hs : a.strides = [s0, s1])
    (hi : a.itemsize ≠ 0) :
    MapNumpyTraits0.mapImpl T a =
      if T.RowsAtCompileTime ≠ toInt e0 ∧ T.RowsAtCompileTime ≠ Dynamic then
        .raise ⟨"The number of rows does not fit with the matrix type."⟩
      else if T.ColsAtCompileTime ≠ toInt e1 ∧ T.ColsAtCompileTime ≠ Dynamic then
        .raise ⟨"The number of columns does not fit with the matrix type."⟩
      else EigenMap.create T (toInt e0) (toInt e1)
        ⟨toInt (Int.tdiv s1 a.itemsize), toInt (Int.tdiv s0 a.itemsize)⟩ := by
  simp [MapNumpyTraits0.mapImpl, PyArray_NDIM, PyArray_DIMS, PyArray_STRIDE,
    PyArray_ITEMSIZE, hd, hs, hi]

/-- The `Map` constructor on two extents that the type admits. -/
theorem create_of_admits (T : MatType) (rows cols : Nat) (stride : Stride)
    (hT : T.Admits rows cols) :
    EigenMap.create T (rows : Int) (cols : Int) stride = .ok ⟨rows, cols, stride⟩ := by
  unfold EigenMap.create
  rw [if_pos]
  · simp
  · simpa using hT

/-- The 2-D view builder returns the view of the descriptor when the extents are below 2^31
and the type admits them. -/
theorem mapImpl0_ok {α : Type} (T : MatType) (a : PyArrayObject α) (e0 e1 : Nat)
    (s0 s1 : Int) (hd : a.dimensions = [e0, e1]) (hs : a.strides = [s0, s1])
    (hi : a.itemsize ≠ 0) (he0 : e0 < 2147483648) (he1 : e1 < 2147483648)
    (hT : T.Admits e0 e1) :
    MapNumpyTraits0.mapImpl T a =
      .ok ⟨e0, e1, ⟨toInt (Int.tdiv s1 a.itemsize), toInt (Int.tdiv s0 a.itemsize)⟩⟩ := by
  rw [mapImpl0_eq T a e0 e1 s0 s1 hd hs hi, toInt_natCast e0 he0, toInt_natCast e1 he1]
  have h1 : ¬ (T.RowsAtCompileTime ≠ e0 ∧ T.RowsAtCompileTime ≠ Dynamic) := by
    rintro ⟨h, h'⟩
    rcases hT.1 with h2 | h2
    · exact h' h2
    · exact h h2
  have h2 : ¬ (T.ColsAtCompileTime ≠ e1 ∧ T.ColsAtCompileTime ≠ Dynamic) := by
    rintro ⟨h, h'⟩
    rcases hT.2 with h2 | h2
    · exact h' h2
    · exact h h2
  rw [if_neg h1, if_neg h2, create_of_admits T e0 e1 _ hT]

/-- The vector view builder on a well-formed descriptor of 1 or 2 dimensions, as one
expression. -/
theorem mapImpl1_eq {α : Type} (T : MatType) (a : PyArrayObject α)
    (hlen : a.dimensions.length = 1 ∨ a.dimensions.length = 2)
    (hs : a.strides.length = a.dimensions.length) (hi : a.itemsize ≠ 0) :
    MapNumpyTraits1.mapImpl T a =
      if T.MaxSizeAtCompileTime ≠ toInt (selectedLength a.dimensions) ∧
          T.MaxSizeAtCompileTime ≠ Dynamic then
        .raise ⟨"The number of elements does not fit with the vector type."⟩
      else EigenMap.create T (toInt (selectedLength a.dimensions)) 1
        (InnerStride (toInt (Int.tdiv (selectedStride a.dimensions a.strides) a.itemsize))) := by
  obtain ⟨data, dims, strides, itemsize, type_num, flags⟩ := a
  simp only at hlen hs hi ⊢
  rcases hlen with h | h
  · match dims, strides, h, hs with
    | [e0], [s0], _, _ =>
      simp [MapNumpyTraits1.mapImpl, MapNumpyTraits1.rowMajor, PyArray_NDIM, PyArray_DIMS,
        PyArray_STRIDE, PyArray_ITEMSIZE, hi, selectedLength, selectedStride]
  · match dims, strides, h, hs with
    | [e0, e1], [s0, s1], _, _ =>
      by_cases hgt : e0 > e1
      · have hmax : max e0 e1 = e0 := max_eq_left (le_of_lt hgt)
        simp [MapNumpyTraits1.mapImpl, MapNumpyTraits1.rowMajor, PyArray_NDIM, PyArray_DIMS,
          PyArray_STRIDE, PyArray_ITEMSIZE, hi, selectedLength, selectedStride, hgt, hmax]
      · have hmax : max e0 e1 = e1 := max_eq_right (not_lt.mp hgt)
        simp [MapNumpyTraits1.mapImpl, MapNumpyTraits1.rowMajor, PyArray_NDIM, PyArray_DIMS,
          PyArray_STRIDE, PyArray_ITEMSIZE, hi, selectedLength, selectedStride, hgt, hmax]

/-- A type that admits the shape `(L, 1)` has `L` elements or a dynamic size. -/
theorem MatType.maxSize_of_admits (T : MatType) (L : Nat) (hT : T.Admits L 1) :
    T.MaxSizeAtCompileTime = Dynamic ∨ T.MaxSizeAtCompileTime = L := by
  unfold MatType.MaxSizeAtCompileTime
  split_ifs with h
  · exact Or.inl rfl
  · right
    push_neg at h
    rcases hT.1 with h1 | h1
    · exact absurd h1 h.1
    · rcases hT.2 with h2 | h2
      · exact absurd h2 h.2
      · rw [h1, h2]; simp

/-- The vector view builder returns the single-stride view of the selected dimension when
the selected length is below 2^31 and the type admits the column shape `(length, 1)`. -/
theorem mapImpl1_ok {α : Type} (T : MatType) (a : PyArrayObject α)
    (hlen : a.dimensions.length = 1 ∨ a.dimensions.length = 2)
    (hs : a.strides.length = a.dimensions.length) (hi : a.itemsize ≠ 0)
    (hL : selectedLength a.dimensions < 2147483648)
    (hT : T.Admits (selectedLength a.dimensions) 1) :
    MapNumpyTraits1.mapImpl T a =
      .ok ⟨selectedLength a.dimensions, 1,
        InnerStride (toInt (Int.tdiv (selectedStride a.dimensions a.strides) a.itemsize))⟩ := by
  rw [mapImpl1_eq T a hlen hs hi, toInt_natCast _ hL]
  have h1 : ¬ (T.MaxSizeAtCompileTime ≠ selectedLength a.dimensions ∧
      T.MaxSizeAtCompileTime ≠ Dynamic) := by
    rintro ⟨h, h'⟩
    rcases T.maxSize_of_admits _ hT with h2 | h2
    · exact h' h2
    · exact h h2
  rw [if_neg h1]
  exact create_of_admits T _ 1 _ hT

/-- C4, counterexample.  For `MatrixXd` and an array of shape (2^32 + 3, 3) with byte strides
(0, 8) the view has 3 rows, not `extent[0]`: the extent is stored in an `int`.  For a
row-major matrix type and a C-contiguous 2 x 2 array the coefficient `(0, 1)` of the view is
the element 2 elements after the data pointer, not the element at offset
`0 * (16 / 8) + 1 * (8 / 8) = 1`: `Stride(stride2, stride1)` suits column-major types
only. -/
theorem mapImpl0_narrows_and_ignores_order :
    hugeArray.dimensions = [4294967299, 3] ∧ hugeArray.strides = [0, 8] ∧
    hugeArray.itemsize = 8 ∧ MatrixXd.Admits 4294967299 3 ∧
    MapNumpyTraits0.mapImpl MatrixXd hugeArray = Result.ok ⟨3, 3, ⟨1, 0⟩⟩ ∧
    array22.dimensions = [2, 2] ∧ array22.strides = [16, 8] ∧ RowMatrixXd.Admits 2 2 ∧
    MapNumpyTraits0.mapImpl RowMatrixXd array22 = Result.ok ⟨2, 2, ⟨1, 2⟩⟩ ∧
    EigenMap.coeff ⟨2, 2, ⟨1, 2⟩⟩ RowMatrixXd array22.data 0 1 = 16 ∧
    pyData Scalar.double array22.data
      ((0 : Int) * Int.tdiv 16 array22.itemsize + (1 : Int) * Int.tdiv 8 array22.itemsize) = 8 ∧
    array22.getitem2 0 1 = some 8 := by
  refine ⟨rfl, rfl, rfl, ⟨Or.inl rfl, Or.inl rfl⟩, ?_, rfl, rfl, ⟨Or.inl rfl, Or.inl rfl⟩, ?_,
    by decide, by decide, by decide⟩
  · rw [mapImpl0_eq MatrixXd hugeArray 4294967299 3 0 8 rfl rfl (by decide)]
    decide
  · rw [mapImpl0_eq RowMatrixXd array22 2 2 16 8 rfl rfl (by decide)]
    decide

/-- C4, amended: on a 2-dimensional descriptor whose extents and element strides
`byteStride / itemSize` are in the range of a C `int`, whose byte strides are multiples of
the (non-zero) item size, and for a column-major target type whose fixed extents agree with
the extents of the descriptor, `MapNumpyTraits<MatType,0>::mapImpl` returns a view with
`rows = extent[0]` and `cols = extent[1]` whose coefficient `(i, j)` is the element
`i * (byteStride[0] / itemSize) + j * (byteStride[1] / itemSize)` elements after the data
pointer; when the items of the array are scalars of the target type this is the element NumPy
itself addresses at `(i, j)` through the byte strides, so a sliced buffer is read through its
strides. -/
theorem mapImpl0_layout {α : Type} (T : MatType) (a : PyArrayObject α) (e0 e1 : Nat)
    (s0 s1 : Int) (hd : a.dimensions = [e0, e1]) (hs : a.strides = [s0, s1])
    (hi : a.itemsize ≠ 0) (h0 : a.itemsize ∣ s0) (h1 : a.itemsize ∣ s1)
    (he0 : e0 < 2147483648) (he1 : e1 < 2147483648)
    (hq0 : InIntRange (Int.tdiv s0 a.itemsize)) (hq1 : InIntRange (Int.tdiv s1 a.itemsize))
    (hcol : T.IsRowMajor = false) (hT : T.Admits e0 e1) :
    ∃ view, MapNumpyTraits0.mapImpl T a = Result.ok view ∧
      view.rows = e0 ∧ view.cols = e1 ∧
      (∀ i j, i < e0 → j < e1 →
        view.coeff T a.data i j =
          pyData T.Scalar a.data
            ((i : Int) * Int.tdiv s0 a.itemsize + (j : Int) * Int.tdiv s1 a.itemsize)) ∧
      (a.itemsize = T.Scalar.size → ∀ i j, i < e0 → j < e1 →
        some (view.coeff T a.data i j) = a.getitem2 i j) := by
  refine ⟨_, mapImpl0_ok T a e0 e1 s0 s1 hd hs hi he0 he1 hT, rfl, rfl, ?_, ?_⟩
  · intro i j _ _
    simp [EigenMap.coeff, EigenMap.offset, hcol, toInt_of_range _ hq0, toInt_of_range _ hq1]
  · intro hsz i j _ _
    simp only [PyArrayObject.getitem2, hs, EigenMap.coeff, EigenMap.offset, pyData, hcol,
      toInt_of_range _ hq0, toInt_of_range _ hq1]
    congr 2
    simp only [Bool.false_eq_true, if_false]
    rw [← hsz, add_mul, mul_assoc, mul_assoc, Int.tdiv_mul_cancel h0, Int.tdiv_mul_cancel h1]

/-- The slice `base[::2, ::2]` converted for `MatrixXd`: an instance of `mapImpl0_layout`. -/
theorem mapImpl0_layout_witness :
    ∃ view, MapNumpyTraits0.mapImpl MatrixXd slicedArray = Result.ok view ∧
      view.rows = 2 ∧ view.cols = 3 ∧
      (∀ i j, i < 2 → j < 3 →
        view.coeff MatrixXd slicedArray.data i j =
          pyData MatrixXd.Scalar slicedArray.data
            ((i : Int) * Int.tdiv 96 slicedArray.itemsize +
              (j : Int) * Int.tdiv 16 slicedArray.itemsize)) ∧
      (slicedArray.itemsize = MatrixXd.Scalar.size → ∀ i j, i < 2 → j < 3 →
        some (view.coeff MatrixXd slicedArray.data i j) = slicedArray.getitem2 i j) :=
  mapImpl0_layout MatrixXd slicedArray 2 3 96 16 rfl rfl (by decide) (by decide) (by decide)
    (by decide) (by decide) (by decide) (by decide) rfl ⟨Or.inl rfl, Or.inl rfl⟩

/-- The `Map` constructor never throws `eigenpy::exception`. -/
theorem create_ne_raise (T : MatType) (rows cols : Int) (stride : Stride) (e : exception) :
    EigenMap.create T rows cols stride ≠ Result.raise e := by
  unfold EigenMap.create
  split_ifs <;> simp

/-- C7, counterexample.  `Matrix3d` fixes 3 rows and the array has `extent[0] = 2^32 + 3`,
yet `MapNumpyTraits<MatType,0>::mapImpl` raises nothing and returns a 3 x 3 view;
`Vector3d` fixes the size 3 and the selected length of a (2^32 + 3, 2) array is 2^32 + 3,
yet `MapNumpyTraits<MatType,1>::mapImpl` raises nothing and returns a view of length 3. -/
theorem mapImpl_no_raise_on_wrapped_extent :
    hugeArray.dimensions = [4294967299, 3] ∧
    Matrix3d.RowsAtCompileTime ≠ Dynamic ∧ Matrix3d.RowsAtCompileTime ≠ 4294967299 ∧
    MapNumpyTraits0.mapImpl Matrix3d hugeArray = Result.ok ⟨3, 3, ⟨1, 0⟩⟩ ∧
    selectedLength hugeColumns.dimensions = 4294967299 ∧
    Vector3d.MaxSizeAtCompileTime ≠ Dynamic ∧ Vector3d.MaxSizeAtCompileTime ≠ 4294967299 ∧
    MapNumpyTraits1.mapImpl Vector3d hugeColumns = Result.ok ⟨3, 1, InnerStride 0⟩ := by
  refine ⟨rfl, by decide, by decide, ?_, by decide, by decide, by decide, ?_⟩
  · rw [mapImpl0_eq Matrix3d hugeArray 4294967299 3 0 8 rfl rfl (by decide)]
    decide
  · rw [mapImpl1_eq Vector3d hugeColumns (Or.inr rfl) rfl (by decide)]
    decide

/-- C7, amended: the view builder compares the fixed extents of the target with the
observed extents as stored in an `int` (`toInt`), which are the extents themselves when
they are below 2^31.  On a well-formed 2-dimensional descriptor
`MapNumpyTraits<MatType,0>::mapImpl` raises `eigenpy::exception` if and only if the row
count of the target is fixed and differs from that value of `extent[0]`, or its column count
is fixed and differs from that value of `extent[1]`, the row error being the one reported
whenever the rows differ; on a well-formed descriptor of 1 or 2 dimensions
`MapNumpyTraits<MatType,1>::mapImpl` raises if and only if the maximum compile-time size of
the target is fixed and differs from that value of the selected length.  Whenever no
exception is raised every fixed extent equals the observed one, as stored. -/
theorem mapImpl_raise_iff {α : Type} (T : MatType) (a : PyArrayObject α)
    (hs : a.strides.length = a.dimensions.length) (hi : a.itemsize ≠ 0) :
    (∀ e0 e1 : Nat, a.dimensions = [e0, e1] →
      ((∃ e, MapNumpyTraits0.mapImpl T a = Result.raise e) ↔
        ((T.RowsAtCompileTime ≠ Dynamic ∧ T.RowsAtCompileTime ≠ toInt e0) ∨
          (T.ColsAtCompileTime ≠ Dynamic ∧ T.ColsAtCompileTime ≠ toInt e1))) ∧
      ((T.RowsAtCompileTime ≠ Dynamic ∧ T.RowsAtCompileTime ≠ toInt e0) →
        MapNumpyTraits0.mapImpl T a =
          Result.raise ⟨"The number of rows does not fit with the matrix type."⟩) ∧
      ((¬ (T.RowsAtCompileTime ≠ Dynamic ∧ T.RowsAtCompileTime ≠ toInt e0) ∧
          (T.ColsAtCompileTime ≠ Dynamic ∧ T.ColsAtCompileTime ≠ toInt e1)) →
        MapNumpyTraits0.mapImpl T a =
          Result.raise ⟨"The number of columns does not fit with the matrix type."⟩) ∧
      ((∀ e, MapNumpyTraits0.mapImpl T a ≠ Result.raise e) →
        (T.RowsAtCompileTime = Dynamic ∨ T.RowsAtCompileTime = toInt e0) ∧
          (T.ColsAtCompileTime = Dynamic ∨ T.ColsAtCompileTime = toInt e1)) ∧
      (e0 < 2147483648 → toInt e0 = e0) ∧ (e1 < 2147483648 → toInt e1 = e1)) ∧
    ((a.dimensions.length = 1 ∨ a.dimensions.length = 2) →
      ((∃ e, MapNumpyTraits1.mapImpl T a = Result.raise e) ↔
        (T.MaxSizeAtCompileTime ≠ Dynamic ∧
          T.MaxSizeAtCompileTime ≠ toInt (selectedLength a.dimensions))) ∧
      ((T.MaxSizeAtCompileTime ≠ Dynamic ∧
          T.MaxSizeAtCompileTime ≠ toInt (selectedLength a.dimensions)) →
        MapNumpyTraits1.mapImpl T a =
          Result.raise ⟨"The number of elements does not fit with the vector type."⟩) ∧
      ((∀ e, MapNumpyTraits1.mapImpl T a ≠ Result.raise e) →
        (T.MaxSizeAtCompileTime = Dynamic ∨
          T.MaxSizeAtCompileTime = toInt (selectedLength a.dimensions))) ∧
      (selectedLength a.dimensions < 2147483648 →
        toInt (selectedLength a.dimensions) = selectedLength a.dimensions)) := by
  constructor
  · intro e0 e1 hd
    have hs2 : a.strides.length = 2 := by rw [hs, hd]; rfl
    obtain ⟨s0, s1, hst⟩ : ∃ s0 s1, a.strides = [s0, s1] := by
      match a.strides, hs2 with
      | [s0, s1], _ => exact ⟨s0, s1, rfl⟩
    have heq := mapImpl0_eq T a e0 e1 s0 s1 hd hst hi
    refine ⟨?_, ?_, ?_, ?_, toInt_natCast e0, toInt_natCast e1⟩
    · constructor
      · rintro ⟨e, he⟩
        rw [heq] at he
        by_contra hcon
        push_neg at hcon
        have h1 : ¬ (T.RowsAtCompileTime ≠ toInt e0 ∧ T.RowsAtCompileTime ≠ Dynamic) :=
          fun h => h.1 (hcon.1 h.2)
        have h2 : ¬ (T.ColsAtCompileTime ≠ toInt e1 ∧ T.ColsAtCompileTime ≠ Dynamic) :=
          fun h => h.1 (hcon.2 h.2)
        rw [if_neg h1, if_neg h2] at he
        exact create_ne_raise _ _ _ _ _ he
      · intro h
        rw [heq]
        split_ifs with h1 h2
        · exact ⟨_, rfl⟩
        · exact ⟨_, rfl⟩
        · exfalso
          rcases h with h | h
          · exact h1 ⟨h.2, h.1⟩
          · exact h2 ⟨h.2, h.1⟩
    · intro h
      rw [heq, if_pos ⟨h.2, h.1⟩]
    · rintro ⟨hr, hc⟩
      rw [heq, if_neg (fun h => hr ⟨h.2, h.1⟩), if_pos ⟨hc.2, hc.1⟩]
    · intro hno
      rw [heq] at hno
      constructor
      · by_contra h
        push_neg at h
        exact hno _ (by rw [if_pos ⟨h.2, h.1⟩])
      · by_contra h
        push_neg at h
        by_cases hr : T.RowsAtCompileTime ≠ toInt e0 ∧ T.RowsAtCompileTime ≠ Dynamic
        · exact hno _ (by rw [if_pos hr])
        · exact hno _ (by rw [if_neg hr, if_pos ⟨h.2, h.1⟩])
  · intro hlen
    have heq := mapImpl1_eq T a hlen hs hi
    refine ⟨?_, ?_, ?_, toInt_natCast _⟩
    · constructor
      · rintro ⟨e, he⟩
        rw [heq] at he
        by_contra hcon
        have h1 : ¬ (T.MaxSizeAtCompileTime ≠ toInt (selectedLength a.dimensions) ∧
            T.MaxSizeAtCompileTime ≠ Dynamic) := fun h => hcon ⟨h.2, h.1⟩
        rw [if_neg h1] at he
        exact create_ne_raise _ _ _ _ _ he
      · intro h
        rw [heq, if_pos ⟨h.2, h.1⟩]
        exact ⟨_, rfl⟩
    · intro h
      rw [heq, if_pos ⟨h.2, h.1⟩]
    · intro hno
      rw [heq] at hno
      by_contra h
      push_neg at h
      exact hno _ (by rw [if_pos ⟨h.2, h.1⟩])

/-- A 2 x 2 array against `Matrix3d` and against `Vector3d`: an instance of
`mapImpl_raise_iff`, in which both view builders raise. -/
theorem mapImpl_raise_iff_witness :
    array22.strides.length = array22.dimensions.length ∧ array22.itemsize ≠ 0 ∧
    MapNumpyTraits0.mapImpl Matrix3d array22 =
      Result.raise ⟨"The number of rows does not fit with the matrix type."⟩ ∧
    MapNumpyTraits1.mapImpl Vector3d array22 =
      Result.raise ⟨"The number of elements does not fit with the vector type."⟩ :=
  ⟨rfl, by decide,
    ((mapImpl_raise_iff Matrix3d array22 rfl (by decide)).1 2 2 rfl).2.1
      ⟨by decide, by decide⟩,
    ((mapImpl_raise_iff Vector3d array22 rfl (by decide)).2 (Or.inr rfl)).2.1
      ⟨by decide, by decide⟩⟩

/-- The vector layout for a column-major type that admits the column shape, when the
selected length and the element stride are in the range of `int`: the view has the selected
length and the element stride of the selected dimension, and its coefficient `k` is the
element `k * stride` elements after the data pointer. -/
theorem mapImpl1_layout {α : Type} (T : MatType) (a : PyArrayObject α)
    (hlen : a.dimensions.length = 1 ∨ a.dimensions.length = 2)
    (hs : a.strides.length = a.dimensions.length) (hi : a.itemsize ≠ 0)
    (hL : selectedLength a.dimensions < 2147483648)
    (hq : InIntRange (Int.tdiv (selectedStride a.dimensions a.strides) a.itemsize))
    (hcol : T.IsRowMajor = false)
    (hT : T.Admits (selectedLength a.dimensions) 1) :
    ∃ view, MapNumpyTraits1.mapImpl T a = Result.ok view ∧
      view.rows = selectedLength a.dimensions ∧ view.cols = 1 ∧
      view.stride.inner = Int.tdiv (selectedStride a.dimensions a.strides) a.itemsize ∧
      ∀ k, k < selectedLength a.dimensions →
        view.coeff T a.data k 0 = pyData T.Scalar a.data ((k : Int) * view.stride.inner) := by
  refine ⟨_, mapImpl1_ok T a hlen hs hi hL hT, rfl, rfl, ?_, ?_⟩
  · simp [InnerStride, toInt_of_range _ hq]
  · intro k _
    simp [EigenMap.coeff, EigenMap.offset, InnerStride, hcol]

/-- C5: evaluation at a row-vector target.  For `RowVectorXd`, a vector type of dynamic
length, and a 1 x 2 array the vector layout selects length 2 and calls the view constructor
with the column shape `(2, 1)`, which a type with one row does not admit: no view of length
2 is returned. -/
theorem mapImpl1_rowVector_undefined :
    RowVectorXd.IsVectorAtCompileTime = true ∧
    RowVectorXd.MaxSizeAtCompileTime = Dynamic ∧
    selectedLength array12.dimensions = 2 ∧
    MapNumpyTraits1.mapImpl RowVectorXd array12 = Result.undefined ∧
    MapNumpyTraits1.mapImpl VectorXd array12 = Result.ok ⟨2, 1, InnerStride 1⟩ := by
  refine ⟨rfl, rfl, rfl, ?_, ?_⟩
  · rw [mapImpl1_eq RowVectorXd array12 (Or.inr rfl) rfl (by decide)]
    decide
  · rw [mapImpl1_eq VectorXd array12 (Or.inr rfl) rfl (by decide)]
    decide

/-! ## The converter from Python -/

theorem construct_of_map_ok {α : Type} (T : MatType) (a : PyArrayObject α)
    (memory : rvalue_from_python_data α) (uninit : Raw α) (view : EigenMap)
    (h : MapNumpy.map T a = Result.ok view) :
    EigenFromPy.construct T (PyObject.array a) memory uninit =
      (Result.ok (), ⟨Ptr.storage,
        some ((TraitsMatrixConstructor.construct T uninit view.rows view.cols).assignMap view
          T a.data)⟩) := by
  simp [EigenFromPy.construct, h]

theorem construct_of_map_raise {α : Type} (T : MatType) (a : PyArrayObject α)
    (memory : rvalue_from_python_data α) (uninit : Raw α) (e : exception)
    (h : MapNumpy.map T a = Result.raise e) :
    EigenFromPy.construct T (PyObject.array a) memory uninit = (Result.raise e, memory) := by
  simp [EigenFromPy.construct, h]

theorem construct_of_map_undefined {α : Type} (T : MatType) (a : PyArrayObject α)
    (memory : rvalue_from_python_data α) (uninit : Raw α)
    (h : MapNumpy.map T a = Result.undefined) :
    EigenFromPy.construct T (PyObject.array a) memory uninit = (Result.undefined, memory) := by
  simp [EigenFromPy.construct, h]

/-- The validator accepts an array that passes its four checks. -/
theorem convertible_of_checks {α : Type} (T : MatType) (a : PyArrayObject α)
    (hd : PyArray_NDIM a = 2 ∨ (PyArray_NDIM a = 1 ∧ T.IsVectorAtCompileTime = true))
    (ht : a.type_num = NumpyEquivalentType.type_code T.Scalar)
    (hf : a.flags.testBit 8 = true) :
    EigenFromPy.convertible T (PyObject.array a) = (some (PyObject.array a), []) := by
  have h1 : ¬ (PyArray_NDIM a ≠ 2 ∧ (PyArray_NDIM a ≠ 1 ∨ ¬ T.IsVectorAtCompileTime = true)) := by
    rintro ⟨h2, h⟩
    rcases hd with hd | ⟨hd, hv⟩
    · exact h2 hd
    · rcases h with h | h
      · exact h hd
      · exact h hv
  have h3 : ¬ (PyArray_FLAGS a &&& NPY_ALIGNED = 0) := by
    intro h
    rw [PyArray_FLAGS, and_aligned_eq_zero_iff, hf] at h
    cases h
  simp only [EigenFromPy.convertible, PyArray_ObjectType, ht]
  rw [if_neg h1, if_neg (by simp), if_neg h3]

/-- The 2-D view builder raises when an extent below 2^31 is in conflict with a fixed extent
of the type. -/
theorem mapImpl0_raise_of_conflict {α : Type} (T : MatType) (a : PyArrayObject α)
    (e0 e1 : Nat) (hd : a.dimensions = [e0, e1])
    (hs : a.strides.length = a.dimensions.length) (hi : a.itemsize ≠ 0)
    (he0 : e0 < 2147483648) (he1 : e1 < 2147483648)
    (hc : ExtentConflict T a.dimensions) :
    ∃ e, MapNumpyTraits0.mapImpl T a = Result.raise e := by
  have hs2 : a.strides.length = 2 := by rw [hs, hd]; rfl
  obtain ⟨s0, s1, hst⟩ : ∃ s0 s1, a.strides = [s0, s1] := by
    match a.strides, hs2 with
    | [s0, s1], _ => exact ⟨s0, s1, rfl⟩
  rw [hd] at hc
  simp only [ExtentConflict] at hc
  rw [mapImpl0_eq T a e0 e1 s0 s1 hd hst hi, toInt_natCast e0 he0, toInt_natCast e1 he1]
  split_ifs with h1 h2
  · exact ⟨_, rfl⟩
  · exact ⟨_, rfl⟩
  · exfalso
    rcases hc with h | h
    · exact h1 ⟨h.2, h.1⟩
    · exact h2 ⟨h.2, h.1⟩

/-- C8, counterexample: an aligned 2 x 2 array of doubles against `Matrix3d`, which fixes
3 rows, is accepted by `EigenFromPy::convertible`. -/
theorem convertible_accepts_conflicting_extents :
    array22.dimensions = [2, 2] ∧ Matrix3d.RowsAtCompileTime = 3 ∧
    array22.flags.testBit 8 = true ∧
    array22.type_num = NumpyEquivalentType.type_code Matrix3d.Scalar ∧
    (EigenFromPy.convertible Matrix3d (PyObject.array array22)).1 =
      some (PyObject.array array22) ∧
    (EigenFromPy.convertible Matrix3d (PyObject.array array22)).1 ≠ none := by
  have h := convertible_of_checks Matrix3d array22 (Or.inl rfl) rfl (by decide)
  refine ⟨rfl, rfl, by decide, rfl, ?_, ?_⟩
  · rw [h]
  · rw [h]
    simp

/-- C8, amended: the validator does not look at the extents.  An aligned array with the
element type of the target and an accepted number of dimensions is accepted by
`EigenFromPy::convertible`, without any diagnostic, whatever its extents, also when an
extent is in conflict with a fixed extent of the target.  A conflict is raised, if at all,
by the view builder inside `EigenFromPy::construct`, which then leaves the storage and
`memory->convertible` as they were: for a matrix target type and extents below 2^31 it
raises on every conflict; for a vector target type it raises exactly when the size of the
type is fixed and differs from the selected length as stored in an `int`, so some arrays in
conflict with a vector type are converted without an exception. -/
theorem conflict_accepted_then_raised {α : Type} (T : MatType) (a : PyArrayObject α)
    (hd : PyArray_NDIM a = 2 ∨ (PyArray_NDIM a = 1 ∧ T.IsVectorAtCompileTime = true))
    (hs : a.strides.length = a.dimensions.length) (hi : a.itemsize ≠ 0)
    (ht : a.type_num = NumpyEquivalentType.type_code T.Scalar)
    (hf : a.flags.testBit 8 = true)
    (memory : rvalue_from_python_data α) (uninit : Raw α) :
    EigenFromPy.convertible T (PyObject.array a) = (some (PyObject.array a), []) ∧
    (T.IsVectorAtCompileTime = false → ∀ e0 e1 : Nat, a.dimensions = [e0, e1] →
      e0 < 2147483648 → e1 < 2147483648 → ExtentConflict T a.dimensions →
      ∃ e, EigenFromPy.construct T (PyObject.array a) memory uninit =
        (Result.raise e, memory)) ∧
    (T.IsVectorAtCompileTime = true →
      ((∃ e, EigenFromPy.construct T (PyObject.array a) memory uninit =
          (Result.raise e, memory)) ↔
        (T.MaxSizeAtCompileTime ≠ Dynamic ∧
          T.MaxSizeAtCompileTime ≠ toInt (selectedLength a.dimensions)))) := by
  refine ⟨convertible_of_checks T a hd ht hf, ?_, ?_⟩
  · intro hv e0 e1 hdm he0 he1 hc
    obtain ⟨e, he⟩ := mapImpl0_raise_of_conflict T a e0 e1 hdm hs hi he0 he1 hc
    refine ⟨e, construct_of_map_raise T a memory uninit e ?_⟩
    rw [MapNumpy.map, hv]
    exact he
  · intro hv
    have hlen : a.dimensions.length = 1 ∨ a.dimensions.length = 2 := by
      rcases hd with hd | ⟨hd, _⟩
      · exact Or.inr hd
      · exact Or.inl hd
    have hmap : MapNumpy.map T a = MapNumpyTraits1.mapImpl T a := by
      rw [MapNumpy.map, if_pos hv]
    have heq := mapImpl1_eq T a hlen hs hi
    constructor
    · rintro ⟨e, he⟩
      by_contra hcon
      have h1 : ¬ (T.MaxSizeAtCompileTime ≠ toInt (selectedLength a.dimensions) ∧
          T.MaxSizeAtCompileTime ≠ Dynamic) := fun h => hcon ⟨h.2, h.1⟩
      rw [if_neg h1] at heq
      cases hm : EigenMap.create T (toInt (selectedLength a.dimensions)) 1
          (InnerStride (toInt (Int.tdiv (selectedStride a.dimensions a.strides) a.itemsize))) with
      | raise e' => exact create_ne_raise _ _ _ _ _ hm
      | undefined =>
        rw [construct_of_map_undefined T a memory uninit (hmap.trans (heq.trans hm))] at he
        simp at he
      | ok view =>
        rw [construct_of_map_ok T a memory uninit view (hmap.trans (heq.trans hm))] at he
        simp at he
    · intro h
      rw [if_pos ⟨h.2, h.1⟩] at heq
      exact ⟨_, construct_of_map_raise T a memory uninit _ (hmap.trans heq)⟩

/-- The 2 x 2 array against `Matrix3d`, on which `construct` raises, and a 2 x 3 array
against `Vector3d`, which is in conflict with both fixed extents of the type and is
converted to the vector of its first row: an instance of `conflict_accepted_then_raised`. -/
theorem conflict_accepted_then_raised_witness :
    ExtentConflict Matrix3d array22.dimensions ∧
    EigenFromPy.convertible Matrix3d (PyObject.array array22) =
      (some (PyObject.array array22), []) ∧
    (∃ e, EigenFromPy.construct Matrix3d (PyObject.array array22) freshMemory zeroRaw =
      (Result.raise e, freshMemory)) ∧
    ExtentConflict Vector3d array23.dimensions ∧
    EigenFromPy.convertible Vector3d (PyObject.array array23) =
      (some (PyObject.array array23), []) ∧
    ¬ (∃ e, EigenFromPy.construct Vector3d (PyObject.array array23) freshMemory zeroRaw =
      (Result.raise e, freshMemory)) :=
  have hc : ExtentConflict Matrix3d array22.dimensions := by
    simp [ExtentConflict, array22, PyArray_SimpleNew, Matrix3d, Dynamic]
  have hv : ExtentConflict Vector3d array23.dimensions := by
    simp [ExtentConflict, array23, PyArray_SimpleNew, Vector3d, Dynamic]
  have h1 := conflict_accepted_then_raised Matrix3d array22 (Or.inl rfl) rfl (by decide) rfl
    (by decide) freshMemory zeroRaw
  have h2 := conflict_accepted_then_raised Vector3d array23 (Or.inl rfl) rfl (by decide) rfl
    (by decide) freshMemory zeroRaw
  ⟨hc, h1.1, h1.2.1 rfl 2 2 rfl (by decide) (by decide) hc, hv, h2.1,
    fun h => absurd ((h2.2.2 rfl).mp h) (by decide)⟩

/-- The view builder selected for a type that is not a vector at compile time. -/
theorem map_of_not_vector {α : Type} (T : MatType) (a : PyArrayObject α)
    (hv : T.IsVectorAtCompileTime = false) :
    MapNumpy.map T a = MapNumpyTraits0.mapImpl T a := by
  simp [MapNumpy.map, hv]

/-- The view builder selected for a type that is a vector at compile time. -/
theorem map_of_vector {α : Type} (T : MatType) (a : PyArrayObject α)
    (hv : T.IsVectorAtCompileTime = true) :
    MapNumpy.map T a = MapNumpyTraits1.mapImpl T a := by
  simp [MapNumpy.map, hv]


/-- C9, counterexample: a 2 x 2 array of doubles that is not marked aligned is rejected by
the validator for `MatrixXd`, yet `EigenFromPy::construct` returns on it, constructs a 2 x 2
value in the storage and sets `memory->convertible` to the storage. -/
theorem construct_accepts_unaligned :
    (EigenFromPy.convertible MatrixXd (PyObject.array unalignedArray22)).1 = none ∧
    ∃ v, EigenFromPy.construct MatrixXd (PyObject.array unalignedArray22) freshMemory zeroRaw =
        (Result.ok (), ⟨Ptr.storage, some v⟩) ∧
      v.rows = 2 ∧ v.cols = 2 ∧ v.coeff 1 1 = 24 := by
  constructor
  · rfl
  · have hm : MapNumpy.map MatrixXd unalignedArray22 = Result.ok ⟨2, 2, ⟨1, 2⟩⟩ := by
      rw [map_of_not_vector MatrixXd unalignedArray22 rfl,
        mapImpl0_eq MatrixXd unalignedArray22 2 2 16 8 rfl rfl (by decide)]
      decide
    exact ⟨_, construct_of_map_ok MatrixXd unalignedArray22 freshMemory zeroRaw _ hm,
      rfl, rfl, by decide⟩

/-- C9, amended: `EigenFromPy::construct` does not validate.  It never reads the element
type code or the flags of the array, so an array rejected only for its type code or its
alignment is converted exactly as an accepted array with the same extents, strides, item
size and data.  On an object that the validator rejects because it is not an array or
because of its number of dimensions, `construct` has no defined result (a failed assertion
or an invalid read, not an exception), and the storage and `memory->convertible` are as
before the call. -/
theorem construct_does_not_validate {α : Type} (T : MatType)
    (memory : rvalue_from_python_data α) (uninit : Raw α) :
    (∀ (a : PyArrayObject α) (type_num : Int) (flags : Nat),
      EigenFromPy.construct T (PyObject.array { a with type_num := type_num, flags := flags })
          memory uninit =
        EigenFromPy.construct T (PyObject.array a) memory uninit) ∧
    EigenFromPy.construct T PyObject.other memory uninit = (Result.undefined, memory) ∧
    (∀ a : PyArrayObject α,
      ¬ (PyArray_NDIM a = 2 ∨ (PyArray_NDIM a = 1 ∧ T.IsVectorAtCompileTime = true)) →
      EigenFromPy.construct T (PyObject.array a) memory uninit = (Result.undefined, memory)) := by
  refine ⟨fun a t f => rfl, rfl, ?_⟩
  intro a hd
  push_neg at hd
  apply construct_of_map_undefined
  unfold MapNumpy.map
  by_cases hv : T.IsVectorAtCompileTime = true
  · rw [if_pos hv]
    have h1 : PyArray_NDIM a ≠ 1 := fun h => hd.2 h hv
    unfold MapNumpyTraits1.mapImpl
    split_ifs with h2
    · have h0 : a.dimensions = [] := by
        have : a.dimensions.length = 0 := by
          have h3 := hd.1
          unfold PyArray_NDIM at h1 h2 h3
          omega
        exact List.length_eq_zero.mp this
      simp [MapNumpyTraits1.rowMajor, PyArray_NDIM, PyArray_DIMS, h0]
    · rfl
  · rw [if_neg hv]
    unfold MapNumpyTraits0.mapImpl
    rw [if_pos hd.1]

/-- A 1-dimensional array against `MatrixXd`: an instance of `construct_does_not_validate`. -/
theorem construct_does_not_validate_witness :
    EigenFromPy.construct MatrixXd
        (PyObject.array (PyArray_SimpleNew [3] Scalar.double sampleMemory)) freshMemory zeroRaw =
      (Result.undefined, freshMemory) :=
  (construct_does_not_validate MatrixXd freshMemory zeroRaw).2.2
    (PyArray_SimpleNew [3] Scalar.double sampleMemory) (by decide)

/-- The view builder selected for the dynamically sized vector type, on a well-formed
2-dimensional descriptor whose larger extent is below 2^31. -/
theorem map_vectorX {α : Type} (s : Scalar) (a : PyArrayObject α) (e0 e1 : Nat) (s0 s1 : Int)
    (hd : a.dimensions = [e0, e1]) (hs : a.strides = [s0, s1]) (hi : a.itemsize ≠ 0)
    (hL : max e0 e1 < 2147483648) :
    MapNumpy.map (VectorX s) a =
      Result.ok ⟨max e0 e1, 1,
        InnerStride (toInt (Int.tdiv (if e0 > e1 then s0 else s1) a.itemsize))⟩ := by
  have hv : (VectorX s).IsVectorAtCompileTime = true := by
    simp [VectorX, MatType.IsVectorAtCompileTime]
  have hlen : a.dimensions.length = 1 ∨ a.dimensions.length = 2 := by
    rw [hd]; exact Or.inr rfl
  have hsl : a.strides.length = a.dimensions.length := by rw [hd, hs]; rfl
  have hT : (VectorX s).Admits (selectedLength a.dimensions) 1 := ⟨Or.inl rfl, Or.inr rfl⟩
  have hL' : selectedLength a.dimensions < 2147483648 := by rw [hd]; exact hL
  rw [map_of_vector _ _ hv, mapImpl1_ok (VectorX s) a hlen hsl hi hL' hT, hd, hs]
  rfl

/-- C6, counterexample: for `N = 2^32 + 3` an aligned 1 x N array of doubles that holds the
sequence of `N` zeros is accepted for `VectorXd`, and `EigenFromPy::construct` returns on it
with a vector of length 3, not `N`: the selected extent is stored in an `int`. -/
theorem vector_length_wraps :
    hugeRow.dimensions = [1, 4294967299] ∧
    (∀ k, k < 4294967299 → hugeRow.getitem2 0 k = some 0) ∧
    (EigenFromPy.convertible (VectorX Scalar.double) (PyObject.array hugeRow)).1 =
      some (PyObject.array hugeRow) ∧
    ∃ v : Mat Int,
      EigenFromPy.construct (VectorX Scalar.double) (PyObject.array hugeRow) freshMemory
          zeroRaw = (Result.ok (), ⟨Ptr.storage, some v⟩) ∧
      v.rows = 3 ∧ v.rows ≠ 4294967299 := by
  have hm : MapNumpy.map (VectorX Scalar.double) hugeRow = Result.ok ⟨3, 1, InnerStride 0⟩ := by
    rw [map_of_vector (VectorX Scalar.double) hugeRow rfl,
      mapImpl1_eq (VectorX Scalar.double) hugeRow (Or.inr rfl) rfl (by decide)]
    decide
  refine ⟨rfl, ?_, ?_, _, construct_of_map_ok _ hugeRow freshMemory zeroRaw _ hm, rfl,
    by decide⟩
  · intro k _
    simp [PyArrayObject.getitem2, hugeRow, sampleMemory]
  · rw [convertible_of_checks (VectorX Scalar.double) hugeRow (Or.inl rfl) rfl (by decide)]

/-- C6, amended: for every `N` with `1 ≤ N < 2^31` and every sequence `x` of `N` elements,
an aligned 1 x N array and an aligned N x 1 array of the scalar type that both hold `x`,
with element strides in the range of `int`, are accepted by the validator for the
dynamically sized column vector type of that scalar, and `EigenFromPy::construct` returns
on both with the same native vector in the storage: it has length `N` and its element `k`
is `x[k]`. -/
theorem vector_orientation_transparent {α : Type} (s : Scalar) (N : Nat) (hN : 1 ≤ N)
    (hN31 : N < 2147483648)
    (x : List α) (hx : x.length = N) (rowBuf colBuf : PyArrayObject α)
    (r0 r1 c0 c1 : Int)
    (hrd : rowBuf.dimensions = [1, N]) (hcd : colBuf.dimensions = [N, 1])
    (hrs : rowBuf.strides = [r0, r1]) (hcs : colBuf.strides = [c0, c1])
    (hri : rowBuf.itemsize = s.size) (hci : colBuf.itemsize = s.size)
    (hr1 : s.size ∣ r1) (hc0 : s.size ∣ c0)
    (hqr : InIntRange (Int.tdiv r1 s.size)) (hqc : InIntRange (Int.tdiv c0 s.size))
    (hrt : rowBuf.type_num = NumpyEquivalentType.type_code s)
    (hct : colBuf.type_num = NumpyEquivalentType.type_code s)
    (hra : rowBuf.flags.testBit 8 = true) (hca : colBuf.flags.testBit 8 = true)
    (hrx : ∀ k, k < N → rowBuf.getitem2 0 k = x[k]?)
    (hcx : ∀ k, k < N → colBuf.getitem2 k 0 = x[k]?)
    (memory : rvalue_from_python_data α) (uninit : Raw α) :
    (EigenFromPy.convertible (VectorX s) (PyObject.array rowBuf)).1 =
      some (PyObject.array rowBuf) ∧
    (EigenFromPy.convertible (VectorX s) (PyObject.array colBuf)).1 =
      some (PyObject.array colBuf) ∧
    ∃ v : Mat α,
      EigenFromPy.construct (VectorX s) (PyObject.array rowBuf) memory uninit =
        (Result.ok (), ⟨Ptr.storage, some v⟩) ∧
      EigenFromPy.construct (VectorX s) (PyObject.array colBuf) memory uninit =
        (Result.ok (), ⟨Ptr.storage, some v⟩) ∧
      v.rows = N ∧ v.cols = 1 ∧ ∀ k, k < N → some (v.coeff k 0) = x[k]? := by
  have hsz : s.size ≠ 0 := s.size_ne_zero
  have hmax1 : max 1 N = N := max_eq_right hN
  have hmax2 : max N 1 = N := max_eq_left hN
  have hmr := map_vectorX s rowBuf 1 N r0 r1 hrd hrs (by rw [hri]; exact hsz)
    (by rw [hmax1]; exact hN31)
  have hmc := map_vectorX s colBuf N 1 c0 c1 hcd hcs (by rw [hci]; exact hsz)
    (by rw [hmax2]; exact hN31)
  have hgt : ¬ (1 > N) := by omega
  rw [hmax1, if_neg hgt, hri, toInt_of_range _ hqr] at hmr
  rw [hmax2, hci] at hmc
  have hcr := construct_of_map_ok (VectorX s) rowBuf memory uninit _ hmr
  have hcc := construct_of_map_ok (VectorX s) colBuf memory uninit _ hmc
  have hcolT : (VectorX s).IsRowMajor = false := rfl
  have hrow : ∀ k, k < N →
      some (EigenMap.coeff ⟨N, 1, InnerStride (Int.tdiv r1 s.size)⟩ (VectorX s) rowBuf.data
        k 0) = x[k]? := by
    intro k hk
    rw [← hrx k hk]
    simp only [PyArrayObject.getitem2, hrs, EigenMap.coeff, EigenMap.offset, pyData,
      InnerStride, hcolT, Bool.false_eq_true, if_false]
    congr 2
    have hS : (VectorX s).Scalar = s := rfl
    rw [hS, add_mul, mul_assoc, Int.tdiv_mul_cancel hr1]
    simp
  have hcol : ∀ k, k < N →
      some (EigenMap.coeff
        ⟨N, 1, InnerStride (toInt (Int.tdiv (if N > 1 then c0 else c1) s.size))⟩ (VectorX s)
        colBuf.data k 0) = x[k]? := by
    intro k hk
    rw [← hcx k hk]
    simp only [PyArrayObject.getitem2, hcs, EigenMap.coeff, EigenMap.offset, pyData,
      InnerStride, hcolT, Bool.false_eq_true, if_false]
    congr 2
    have hS : (VectorX s).Scalar = s := rfl
    by_cases h1 : N > 1
    · rw [if_pos h1, toInt_of_range _ hqc, hS, add_mul, mul_assoc, Int.tdiv_mul_cancel hc0]
      simp
    · have hk0 : k = 0 := by omega
      subst hk0
      simp
  refine ⟨?_, ?_, _, hcr, ?_, rfl, rfl, ?_⟩
  · rw [convertible_of_checks (VectorX s) rowBuf (Or.inl (by rw [PyArray_NDIM, hrd]; rfl)) hrt hra]
  · rw [convertible_of_checks (VectorX s) colBuf (Or.inl (by rw [PyArray_NDIM, hcd]; rfl)) hct hca]
  · rw [hcc]
    congr 3
    simp only [Mat.assignMap, Mat.mk.injEq, true_and]
    funext i j
    by_cases hin : i < N ∧ j < 1
    · have hj : j = 0 := by omega
      subst hj
      rw [if_pos hin, if_pos hin]
      have h1 := hrow i hin.1
      have h2 := hcol i hin.1
      rw [← h1] at h2
      exact Option.some.inj h2
    · rw [if_neg hin, if_neg hin]
  · intro k hk
    simp only [Mat.assignMap]
    rw [if_pos ⟨hk, by omega⟩]
    exact hrow k hk

/-- The specification's instance `N = 5`: a 1 x 5 and a 5 x 1 array over the same five
doubles, an instance of `vector_orientation_transparent`. -/
theorem vector_orientation_transparent_witness :
    ∃ v : Mat Int,
      EigenFromPy.construct (VectorX Scalar.double) (PyObject.array rowArray5) freshMemory
          zeroRaw = (Result.ok (), ⟨Ptr.storage, some v⟩) ∧
      EigenFromPy.construct (VectorX Scalar.double) (PyObject.array colArray5) freshMemory
          zeroRaw = (Result.ok (), ⟨Ptr.storage, some v⟩) ∧
      v.rows = 5 ∧ v.cols = 1 ∧ ∀ k, k < 5 → some (v.coeff k 0) = [0, 8, 16, 24, 32][k]? :=
  (vector_orientation_transparent Scalar.double 5 (by decide) (by decide)
    [0, 8, 16, 24, 32] rfl
    rowArray5 colArray5 40 8 8 8 rfl rfl rfl rfl rfl rfl (by decide) (by decide)
    (by decide) (by decide) rfl rfl
    (by decide) (by decide) (by decide) (by decide) freshMemory zeroRaw).2.2

/-! ## Zero-length vectors and row vectors -/

/-- The view over the 0 x 1 array for `VectorXd`: dimension 1 is selected, length 1. -/
theorem map_array01 : MapNumpy.map VectorXd array01 = Result.ok ⟨1, 1, InnerStride 1⟩ := by
  rw [map_of_vector VectorXd array01 rfl, mapImpl1_eq VectorXd array01 (Or.inr rfl) rfl
    (by decide)]
  decide

/-- The view over the 1 x 2 array for `RowVectorXd`: the column shape is not admitted. -/
theorem map_array12_row : MapNumpy.map RowVectorXd array12 = Result.undefined := by
  rw [map_of_vector RowVectorXd array12 rfl, mapImpl1_eq RowVectorXd array12 (Or.inr rfl) rfl
    (by decide)]
  decide

/-- The conversion of the empty `VectorXd`: the view has one element, the value none. -/
theorem convert_emptyVector_undefined :
    EigenToPy.convert VectorXd emptyVector (some sampleMemory) = Result.undefined := by
  have h1 : EigenToPy.convert VectorXd emptyVector (some sampleMemory) =
      match MapNumpy.map VectorXd array01 with
      | .raise e => .raise e
      | .undefined => .undefined
      | .ok view =>
        match view.assign VectorXd array01.data emptyVector with
        | .raise e => .raise e
        | .undefined => .undefined
        | .ok mem => .ok { array01 with data := mem } := rfl
  rw [h1, map_array01]
  rfl

/-- C3: evaluation at a vector of length 0.  For the `VectorXd` of shape (0, 1) the new
array has shape (0, 1); the view builder compares the extents 0 and 1, selects dimension 1
and builds a view of shape (1, 1), which is not the shape of the value: the assignment
through the view is not size-consistent and the conversion has no defined result. -/
theorem convert_empty_vector :
    VectorXd.Admits emptyVector.rows emptyVector.cols ∧
    (emptyVector.rows = 0 ∧ emptyVector.cols = 1) ∧
    MapNumpy.map VectorXd (PyArray_SimpleNew [0, 1] Scalar.double sampleMemory) =
      Result.ok ⟨1, 1, InnerStride 1⟩ ∧
    (∀ arr, EigenToPy.convert VectorXd emptyVector (some sampleMemory) ≠ Result.ok arr) := by
  refine ⟨⟨Or.inl rfl, Or.inr rfl⟩, ⟨rfl, rfl⟩, map_array01, ?_⟩
  intro arr h
  rw [convert_emptyVector_undefined] at h
  cases h

/-- C2: evaluation at the failing inputs.  The round trip of a `VectorXd` of length 0 does
not give the vector back: `EigenToPy::convert` has no defined result on it, and the 0 x 1
array that NumPy allocates for it converts back to a vector with one row.  The conversion
of a `RowVectorXd` with two elements has no defined result either: the view builder gives
the view the column shape (2, 1). -/
theorem roundtrip_fails_on_empty_and_row_vectors :
    (∀ arr, EigenToPy.convert VectorXd emptyVector (some sampleMemory) ≠ Result.ok arr) ∧
    (∃ v, EigenFromPy.construct VectorXd (PyObject.array array01) freshMemory zeroRaw =
        (Result.ok (), ⟨Ptr.storage, some v⟩) ∧ v.rows = 1 ∧ v.rows ≠ emptyVector.rows) ∧
    RowVectorXd.Admits rowVector2.rows rowVector2.cols ∧
    (∀ arr, EigenToPy.convert RowVectorXd rowVector2 (some sampleMemory) ≠ Result.ok arr) := by
  refine ⟨?_, ?_, ⟨Or.inr rfl, Or.inl rfl⟩, ?_⟩
  · intro arr h
    rw [convert_emptyVector_undefined] at h
    cases h
  · exact ⟨_, construct_of_map_ok VectorXd array01 freshMemory zeroRaw _ map_array01, rfl,
      by decide⟩
  · intro arr h
    have hc : EigenToPy.convert RowVectorXd rowVector2 (some sampleMemory) =
        Result.undefined := by
      have h1 : EigenToPy.convert RowVectorXd rowVector2 (some sampleMemory) =
          match MapNumpy.map RowVectorXd array12 with
          | .raise e => .raise e
          | .undefined => .undefined
          | .ok view =>
            match view.assign RowVectorXd array12.data rowVector2 with
            | .raise e => .raise e
            | .undefined => .undefined
            | .ok mem => .ok { array12 with data := mem } := rfl
      rw [h1, map_array12_row]
    rw [hc] at h
    cases h

/-- C10: evaluation at the failing inputs.  A 0 x 1 array of doubles is accepted by the
validator for `VectorXd` and `EigenFromPy::construct` returns on it with a vector of one
element in the storage, although the array has no element: that element is read outside
the buffer.  A 1 x 2 array is accepted for `RowVectorXd`, and `construct` neither raises nor
returns on it. -/
theorem construct_on_empty_and_row_arrays :
    (EigenFromPy.convertible VectorXd (PyObject.array array01)).1 =
      some (PyObject.array array01) ∧
    array01.dimensions.prod = 0 ∧
    (∃ v, EigenFromPy.construct VectorXd (PyObject.array array01) freshMemory zeroRaw =
        (Result.ok (), ⟨Ptr.storage, some v⟩) ∧ v.rows * v.cols = 1) ∧
    (EigenFromPy.convertible RowVectorXd (PyObject.array array12)).1 =
      some (PyObject.array array12) ∧
    EigenFromPy.construct RowVectorXd (PyObject.array array12) freshMemory zeroRaw =
      (Result.undefined, freshMemory) := by
  have hm := map_array01
  have hr := map_array12_row
  refine ⟨?_, rfl, ?_, ?_, ?_⟩
  · rw [convertible_of_checks VectorXd array01 (Or.inl rfl) rfl (by decide)]
  · exact ⟨_, construct_of_map_ok VectorXd array01 freshMemory zeroRaw _ hm, rfl⟩
  · rw [convertible_of_checks RowVectorXd array12 (Or.inl rfl) rfl (by decide)]
  · exact construct_of_map_undefined RowVectorXd array12 freshMemory zeroRaw hr

/-- No partial construction, for every input: either `EigenFromPy::construct` does not
return, and then the record `memory` is exactly as before the call, or it returns, and then
`memory->convertible` is the storage and the storage holds a value with the shape of the
view whose every coefficient is the one read through the view. -/
theorem construct_all_or_nothing {α : Type} (T : MatType) (obj : PyObject α)
    (memory : rvalue_from_python_data α) (uninit : Raw α) :
    ((EigenFromPy.construct T obj memory uninit).1 ≠ Result.ok () ∧
      (EigenFromPy.construct T obj memory uninit).2 = memory) ∨
    (∃ a view v, obj = PyObject.array a ∧ MapNumpy.map T a = Result.ok view ∧
      EigenFromPy.construct T obj memory uninit = (Result.ok (), ⟨Ptr.storage, some v⟩) ∧
      v.rows = view.rows ∧ v.cols = view.cols ∧
      ∀ i j, i < view.rows → j < view.cols → v.coeff i j = view.coeff T a.data i j) := by
  cases obj with
  | other =>
    left
    exact ⟨by simp [EigenFromPy.construct], rfl⟩
  | array a =>
    cases hm : MapNumpy.map T a with
    | raise e =>
      left
      rw [construct_of_map_raise T a memory uninit e hm]
      exact ⟨by simp, rfl⟩
    | undefined =>
      left
      rw [construct_of_map_undefined T a memory uninit hm]
      exact ⟨by simp, rfl⟩
    | ok view =>
      right
      refine ⟨a, view, _, rfl, hm, construct_of_map_ok T a memory uninit view hm, rfl, rfl, ?_⟩
      intro i j hi hj
      simp [Mat.assignMap, hi, hj]

/-! ## Stores through a view -/

/-- Reading an element after a sequence of stores: when some store addresses the element
(or the memory already holds the value) and every store that addresses it stores `x`, the
element read is `x`. -/
theorem storeAll_read {α : Type} (T : Scalar) (l : List (Int × α)) (mem : Int → α) (k : Int)
    (x : α) (hval : ∀ p ∈ l, p.1 = k → p.2 = x)
    (hex : mem (k * T.size) = x ∨ ∃ p ∈ l, p.1 = k) :
    storeAll T mem l (k * T.size) = x := by
  induction l generalizing mem with
  | nil =>
    rcases hex with h | ⟨p, hp, _⟩
    · exact h
    · cases hp
  | cons p l ih =>
    unfold storeAll
    rw [List.foldl_cons]
    apply ih
    · intro q hq
      exact hval q (List.mem_cons_of_mem _ hq)
    · by_cases hpk : p.1 = k
      · left
        rw [store, hpk, Function.update_same]
        exact hval p (List.mem_cons_self _ _) hpk
      · have hne : k * T.size ≠ p.1 * T.size := by
          intro h
          exact hpk (mul_right_cancel₀ T.size_ne_zero h).symm
        rcases hex with h | ⟨q, hq, hqk⟩
        · left
          rw [store, Function.update_noteq hne]
          exact h
        · right
          rcases List.mem_cons.mp hq with h | h
          · rw [h] at hqk
            exact absurd hqk hpk
          · exact ⟨q, h, hqk⟩

/-- The stores of a view assignment are those of the coefficients of the shape, in either
traversal order. -/
theorem mem_assignments {α : Type} (m : EigenMap) (rowMajor : Bool) (src : Mat α)
    (p : Int × α) :
    p ∈ assignments m rowMajor src ↔
      ∃ j, j < m.cols ∧ ∃ i, i < m.rows ∧ p = (m.offset rowMajor i j, src.coeff i j) := by
  unfold assignments
  split_ifs
  · simp only [List.mem_flatMap, List.mem_map, List.mem_range]
    constructor
    · rintro ⟨i, hi, j, hj, h⟩
      exact ⟨j, hj, i, hi, h.symm⟩
    · rintro ⟨j, hj, i, hi, h⟩
      exact ⟨i, hi, j, hj, h.symm⟩
  · simp only [List.mem_flatMap, List.mem_map, List.mem_range]
    constructor
    · rintro ⟨j, hj, i, hi, h⟩
      exact ⟨j, hj, i, hi, h.symm⟩
    · rintro ⟨j, hj, i, hi, h⟩
      exact ⟨j, hj, i, hi, h.symm⟩

/-- Reading a coefficient back through a view after an assignment through it, when no other
coefficient of the shape lies at the same offset. -/
theorem assign_read {α : Type} (m : EigenMap) (T : MatType) (mem : Int → α) (src : Mat α)
    (hinj : ∀ i j i' j', i < m.rows → j < m.cols → i' < m.rows → j' < m.cols →
      m.offset T.IsRowMajor i j = m.offset T.IsRowMajor i' j' → i = i' ∧ j = j')
    (i j : Nat) (hi : i < m.rows) (hj : j < m.cols) :
    m.coeff T (storeAll T.Scalar mem (assignments m T.IsRowMajor src)) i j = src.coeff i j := by
  unfold EigenMap.coeff pyData
  apply storeAll_read
  · intro p hp hpk
    obtain ⟨j', hj', i', hi', rfl⟩ := (mem_assignments m T.IsRowMajor src p).mp hp
    obtain ⟨h1, h2⟩ := hinj i' j' i j hi' hj' hi hj hpk
    simp [h1, h2]
  · right
    exact ⟨_, (mem_assignments m T.IsRowMajor src _).mpr ⟨j, hj, i, hi, rfl⟩, rfl⟩

/-! ## The round trip on matrices and column vectors -/

/-- Row-major offsets `i * C + j` with `j < C` determine the pair `(i, j)`. -/
theorem contiguous_offset_inj (C i j i' j' : Nat) (hj : j < C) (hj' : j' < C)
    (h : (i : Int) * C + j = (i' : Int) * C + j') : i = i' ∧ j = j' := by
  have hn : i * C + j = i' * C + j' := by exact_mod_cast h
  have hC : 0 < C := by omega
  have h1 : (j + i * C) / C = (j' + i' * C) / C := by rw [add_comm j, add_comm j', hn]
  rw [Nat.add_mul_div_right _ _ hC, Nat.add_mul_div_right _ _ hC, Nat.div_eq_of_lt hj,
    Nat.div_eq_of_lt hj'] at h1
  have hi : i = i' := by omega
  subst hi
  exact ⟨rfl, by omega⟩

/-- The view builder does not read the data of the array. -/
theorem map_data {α : Type} (T : MatType) (a : PyArrayObject α) (d : Int → α) :
    MapNumpy.map T { a with data := d } = MapNumpy.map T a := rfl

/-- The view over the array that `EigenToPy::convert` allocates for a value of a
column-major matrix type, or of a column-major vector type in column shape with at least one
element, when the extents are below 2^31: it has the shape of the value and addresses the
coefficient `(i, j)` at the element offset `i * cols + j`. -/
theorem map_fresh {α : Type} (T : MatType) (R C : Nat) (raw : Int → α)
    (hR : R < 2147483648) (hC : C < 2147483648) (hcol : T.IsRowMajor = false)
    (hT : T.Admits R C) (hvec : T.IsVectorAtCompileTime = true → C = 1 ∧ 1 ≤ R) :
    ∃ st, MapNumpy.map T (PyArray_SimpleNew [R, C] T.Scalar raw) = Result.ok ⟨R, C, st⟩ ∧
      ∀ i j, i < R → j < C →
        (⟨R, C, st⟩ : EigenMap).offset T.IsRowMajor i j = (i : Int) * C + j := by
  have hsz : T.Scalar.size ≠ 0 := T.Scalar.size_ne_zero
  have hstr : (PyArray_SimpleNew [R, C] T.Scalar raw).strides =
      [T.Scalar.size * (C : Int), T.Scalar.size] := by
    simp [PyArray_SimpleNew, contiguousStrides]
  have hone : toInt 1 = 1 := by decide
  by_cases hv : T.IsVectorAtCompileTime = true
  · obtain ⟨hC1, hR1⟩ := hvec hv
    subst hC1
    have hmax : max R 1 = R := max_eq_left hR1
    have hT' : T.Admits (selectedLength (PyArray_SimpleNew [R, 1] T.Scalar raw).dimensions) 1 := by
      simpa [PyArray_SimpleNew, selectedLength, hmax] using hT
    have hL : selectedLength (PyArray_SimpleNew [R, 1] T.Scalar raw).dimensions <
        2147483648 := by
      simpa [PyArray_SimpleNew, selectedLength, hmax] using hR
    have h := mapImpl1_ok T (PyArray_SimpleNew [R, 1] T.Scalar raw) (Or.inr rfl)
      (by rw [hstr]; rfl) hsz hL hT'
    refine ⟨InnerStride 1, ?_, ?_⟩
    · rw [map_of_vector T _ hv, h, hstr]
      simp [PyArray_SimpleNew, selectedLength, selectedStride, hmax, Int.tdiv_self hsz, hone]
    · intro i j _ hj
      have hj0 : j = 0 := by omega
      subst hj0
      simp [EigenMap.offset, InnerStride, hcol]
  · have hv' : T.IsVectorAtCompileTime = false := by simpa using hv
    have h := mapImpl0_ok T (PyArray_SimpleNew [R, C] T.Scalar raw) R C _ _ rfl hstr hsz hR hC hT
    refine ⟨⟨1, C⟩, ?_, ?_⟩
    · rw [map_of_not_vector T _ hv', h]
      simp [PyArray_SimpleNew, Int.tdiv_self hsz, Int.mul_tdiv_cancel_left _ hsz, hone,
        toInt_natCast C hC]
    · intro i j _ _
      simp [EigenMap.offset, hcol]

/-- The round trip, where it holds: for every value `v` with extents below 2^31 of a
column-major matrix type, or of a column-major vector type in column shape with at least
one element, `EigenToPy::convert` returns a new 2-dimensional array with the shape of `v`
and the type code of its scalar whose element `(i, j)` is `v(i, j)`, and
`EigenFromPy::construct` on that array returns with a value in the storage that has the
shape of `v` and equals it element by element. -/
theorem roundtrip_matrix_and_column_vector {α : Type} (T : MatType) (v : Mat α)
    (raw : Int → α) (memory : rvalue_from_python_data α) (uninit : Raw α)
    (hR : v.rows < 2147483648) (hC : v.cols < 2147483648) (hcol : T.IsRowMajor = false)
    (hT : T.Admits v.rows v.cols)
    (hvec : T.IsVectorAtCompileTime = true → v.cols = 1 ∧ 1 ≤ v.rows) :
    ∃ arr, EigenToPy.convert T v (some raw) = Result.ok arr ∧
      arr.dimensions = [v.rows, v.cols] ∧
      arr.type_num = NumpyEquivalentType.type_code T.Scalar ∧
      (∀ i j, i < v.rows → j < v.cols → arr.getitem2 i j = some (v.coeff i j)) ∧
      ∃ w, EigenFromPy.construct T (PyObject.array arr) memory uninit =
          (Result.ok (), ⟨Ptr.storage, some w⟩) ∧
        w.rows = v.rows ∧ w.cols = v.cols ∧
        ∀ i j, i < v.rows → j < v.cols → w.coeff i j = v.coeff i j := by
  obtain ⟨st, hmap, hoff⟩ := map_fresh T v.rows v.cols raw hR hC hcol hT hvec
  have hinj : ∀ i j i' j', i < v.rows → j < v.cols → i' < v.rows → j' < v.cols →
      (⟨v.rows, v.cols, st⟩ : EigenMap).offset T.IsRowMajor i j =
        (⟨v.rows, v.cols, st⟩ : EigenMap).offset T.IsRowMajor i' j' → i = i' ∧ j = j' := by
    intro i j i' j' hi hj hi' hj' h
    rw [hoff i j hi hj, hoff i' j' hi' hj'] at h
    exact contiguous_offset_inj v.cols i j i' j' hj hj' h
  have hread : ∀ i j, i < v.rows → j < v.cols →
      (⟨v.rows, v.cols, st⟩ : EigenMap).coeff T
        (storeAll T.Scalar raw (assignments ⟨v.rows, v.cols, st⟩ T.IsRowMajor v)) i j =
          v.coeff i j :=
    fun i j hi hj => assign_read ⟨v.rows, v.cols, st⟩ T raw v hinj i j hi hj
  have hconv : EigenToPy.convert T v (some raw) =
      Result.ok { PyArray_SimpleNew [v.rows, v.cols] T.Scalar raw with
        data := storeAll T.Scalar raw (assignments ⟨v.rows, v.cols, st⟩ T.IsRowMajor v) } := by
    have hneg : ¬ ((v.rows : Int) < 0 ∨ (v.cols : Int) < 0) := by omega
    simp only [EigenToPy.convert, toInt_natCast v.rows hR, toInt_natCast v.cols hC,
      if_neg hneg, Int.toNat_ofNat]
    rw [hmap]
    simp [EigenMap.assign, PyArray_SimpleNew]
  refine ⟨_, hconv, rfl, rfl, ?_, ?_⟩
  · intro i j hi hj
    rw [← hread i j hi hj]
    simp only [PyArrayObject.getitem2, PyArray_SimpleNew, contiguousStrides, EigenMap.coeff,
      pyData, hoff i j hi hj]
    have hk : (i : Int) * (T.Scalar.size * ((([v.cols] : List Nat).prod : Nat) : Int)) +
        (j : Int) * (T.Scalar.size * ((([] : List Nat).prod : Nat) : Int)) =
          ((i : Int) * v.cols + j) * T.Scalar.size := by
      simp
      ring
    rw [hk]
  · have hmap' := (map_data T (PyArray_SimpleNew [v.rows, v.cols] T.Scalar raw)
      (storeAll T.Scalar raw (assignments ⟨v.rows, v.cols, st⟩ T.IsRowMajor v))).trans hmap
    refine ⟨_, construct_of_map_ok T _ memory uninit _ hmap', rfl, rfl, ?_⟩
    intro i j hi hj
    simp only [Mat.assignMap]
    rw [if_pos ⟨hi, hj⟩]
    exact hread i j hi hj

/-- The specification's 3 x 5 instance: an instance of the round trip for `MatrixXd`. -/
theorem roundtrip_matrix35 :
    ∃ arr, EigenToPy.convert MatrixXd matrix35 (some sampleMemory) = Result.ok arr ∧
      arr.dimensions = [3, 5] ∧
      ∃ w, EigenFromPy.construct MatrixXd (PyObject.array arr) freshMemory zeroRaw =
          (Result.ok (), ⟨Ptr.storage, some w⟩) ∧
        w.rows = 3 ∧ w.cols = 5 ∧
        ∀ i j, i < 3 → j < 5 → w.coeff i j = matrix35.coeff i j := by
  obtain ⟨arr, h1, h2, _, _, h3⟩ := roundtrip_matrix_and_column_vector MatrixXd matrix35
    sampleMemory freshMemory zeroRaw (by decide) (by decide) rfl ⟨Or.inl rfl, Or.inl rfl⟩
    (by decide)
  exact ⟨arr, h1, h2, h3⟩

/-! ## The constructor selector -/

/-- A view returned by the `Map` constructor has a shape that the type admits. -/
theorem create_ok_admits (T : MatType) (rows cols : Int) (stride : Stride) (view : EigenMap)
    (h : EigenMap.create T rows cols stride = Result.ok view) :
    T.Admits view.rows view.cols := by
  unfold EigenMap.create at h
  split_ifs at h with hT
  cases h
  exact hT.2.2

/-- Every view that the view builder returns has a shape that the type admits. -/
theorem map_ok_admits {α : Type} (T : MatType) (a : PyArrayObject α) (view : EigenMap)
    (h : MapNumpy.map T a = Result.ok view) : T.Admits view.rows view.cols := by
  unfold MapNumpy.map at h
  split_ifs at h
  · unfold MapNumpyTraits1.mapImpl at h
    split_ifs at h
    split at h
    · cases h
    · split at h
      · simp only at h
        split_ifs at h
        exact create_ok_admits T _ _ _ view h
      · cases h
  · unfold MapNumpyTraits0.mapImpl at h
    split_ifs at h
    split at h
    · simp only at h
      split_ifs at h
      exact create_ok_admits T _ _ _ view h
    · cases h

/-- The shape the constructor selector gives, for a run-time shape that the type admits. -/
theorem construct_shape_of_admits {α : Type} (T : MatType) (uninit : Raw α) (r c : Nat)
    (hT : T.Admits r c) :
    (TraitsMatrixConstructor.construct T uninit r c).rows = r ∧
    (TraitsMatrixConstructor.construct T uninit r c).cols = c := by
  obtain ⟨hr, hc⟩ := hT
  have hnr : ((r : Int) = Dynamic) = False := by
    simp only [Dynamic, eq_iff_iff, iff_false]; omega
  have hnc : ((c : Int) = Dynamic) = False := by
    simp only [Dynamic, eq_iff_iff, iff_false]; omega
  rcases hr with hr | hr <;> rcases hc with hc | hc <;>
    simp [TraitsMatrixConstructor.construct, MatType.extent, hr, hc, hnr, hnc]

/-- C11: for every target type and every view shape `(r, c)` that `EigenFromPy::construct`
obtains from the view builder for that type, the value `TraitsMatrixConstructor::construct`
builds has `rows = r` and `cols = c`, hence as many elements as the view, and the
assignment from the view keeps that shape.  The selector uses no run-time size for a
fixed x fixed type, both sizes for a dynamic x dynamic type, only `c` for fixed rows and
dynamic columns, and only `r` for dynamic rows and fixed columns. -/
theorem constructor_selects_view_shape {α : Type} (T : MatType) (a : PyArrayObject α)
    (view : EigenMap) (uninit : Raw α) (h : MapNumpy.map T a = Result.ok view) :
    ((TraitsMatrixConstructor.construct T uninit view.rows view.cols).rows = view.rows ∧
      (TraitsMatrixConstructor.construct T uninit view.rows view.cols).cols = view.cols ∧
      (TraitsMatrixConstructor.construct T uninit view.rows view.cols).rows *
          (TraitsMatrixConstructor.construct T uninit view.rows view.cols).cols =
        view.rows * view.cols ∧
      ∀ mem : Int → α,
        ((TraitsMatrixConstructor.construct T uninit view.rows view.cols).assignMap view
            T mem).rows =
          (TraitsMatrixConstructor.construct T uninit view.rows view.cols).rows ∧
        ((TraitsMatrixConstructor.construct T uninit view.rows view.cols).assignMap view
            T mem).cols =
          (TraitsMatrixConstructor.construct T uninit view.rows view.cols).cols) ∧
    (T.RowsAtCompileTime ≠ Dynamic → T.ColsAtCompileTime ≠ Dynamic → ∀ r c r' c',
      TraitsMatrixConstructor.construct T uninit r c =
        TraitsMatrixConstructor.construct T uninit r' c') ∧
    (T.RowsAtCompileTime = Dynamic → T.ColsAtCompileTime = Dynamic → ∀ r c,
      (TraitsMatrixConstructor.construct T uninit r c).rows = r ∧
        (TraitsMatrixConstructor.construct T uninit r c).cols = c) ∧
    (T.RowsAtCompileTime ≠ Dynamic → T.ColsAtCompileTime = Dynamic → ∀ r r' c,
      TraitsMatrixConstructor.construct T uninit r c =
          TraitsMatrixConstructor.construct T uninit r' c ∧
        (TraitsMatrixConstructor.construct T uninit r c).cols = c) ∧
    (T.RowsAtCompileTime = Dynamic → T.ColsAtCompileTime ≠ Dynamic → ∀ r c c',
      TraitsMatrixConstructor.construct T uninit r c =
          TraitsMatrixConstructor.construct T uninit r c' ∧
        (TraitsMatrixConstructor.construct T uninit r c).rows = r) := by
  have hs := construct_shape_of_admits T uninit view.rows view.cols (map_ok_admits T a view h)
  refine ⟨⟨hs.1, hs.2, by rw [hs.1, hs.2], fun mem => ?_⟩, ?_, ?_, ?_, ?_⟩
  · simp only [Mat.assignMap]
    exact ⟨hs.1.symm, hs.2.symm⟩
  · intro hr hc r c r' c'
    simp [TraitsMatrixConstructor.construct, hr, hc]
  · intro hr hc r c
    simp [TraitsMatrixConstructor.construct, hr, hc]
  · intro hr hc r r' c
    simp [TraitsMatrixConstructor.construct, MatType.extent, hr, hc]
  · intro hr hc r c c'
    simp [TraitsMatrixConstructor.construct, MatType.extent, hr, hc]

/-- The 5 x 1 array against `VectorXd`: an instance of `constructor_selects_view_shape`, in
which the selector is the one for dynamic rows and fixed columns. -/
theorem constructor_selects_view_shape_witness :
    MapNumpy.map VectorXd colArray5 = Result.ok ⟨5, 1, InnerStride 1⟩ ∧
    (TraitsMatrixConstructor.construct VectorXd zeroRaw 5 1).rows = 5 ∧
    (TraitsMatrixConstructor.construct VectorXd zeroRaw 5 1).cols = 1 :=
  have hm : MapNumpy.map VectorXd colArray5 = Result.ok ⟨5, 1, InnerStride 1⟩ :=
    map_vectorX Scalar.double colArray5 5 1 8 8 rfl rfl (by decide) (by decide)
  ⟨hm, (constructor_selects_view_shape VectorXd colArray5 ⟨5, 1, InnerStride 1⟩ zeroRaw hm).1.1,
    (constructor_selects_view_shape VectorXd colArray5 ⟨5, 1, InnerStride 1⟩ zeroRaw hm).1.2.1⟩

/-- The selector and the view builder disagree about row vectors: for `RowVectorXd` the
selector passes `c` to the one-argument constructor, so on the column shape `(2, 1)` that
line 145 gives every vector view it would build a single element.  No such view reaches
the selector, because the view constructor does not admit that shape for a row type. -/
theorem constructor_rowVector_on_column_shape :
    (TraitsMatrixConstructor.construct RowVectorXd zeroRaw 2 1).rows = 1 ∧
    (TraitsMatrixConstructor.construct RowVectorXd zeroRaw 2 1).cols = 1 ∧
    ¬ RowVectorXd.Admits 2 1 := by
  refine ⟨rfl, rfl, ?_⟩
  decide

/-! ## The exception bridge -/

/-- A string without a NUL character is its own C string. -/
theorem c_str_of_no_nul (s : String) (h : Char.ofNat 0 ∉ s.data) : c_str s = s := by
  unfold c_str
  have hl : s.data.takeWhile (fun ch => decide (ch ≠ Char.ofNat 0)) = s.data := by
    rw [List.takeWhile_eq_self_iff]
    intro ch hch
    simp only [ne_eq, decide_not, Bool.not_eq_true', decide_eq_false_iff_not]
    intro hc
    exact h (hc ▸ hch)
  rw [hl]

/-- C12, counterexample: the exception constructed with the message `a`, NUL, `b` reports
the message `a` through `what()`, not the message it was constructed with. -/
theorem what_truncates_at_nul :
    (exception.ofMessage nulMessage).getMessage = nulMessage ∧
    (exception.ofMessage nulMessage).what = "a" ∧
    (exception.ofMessage nulMessage).what ≠ nulMessage := by
  decide

/-- C12, amended: for every string `m`, the exception constructed with message `m` reports
exactly `m` through `getMessage` and through `copyMessage`; through `what()` it reports the
C string of `m`, which is `m` up to its first NUL character and exactly `m` when `m`
contains none.  Once `registerException` has run, its translation sets a Python exception
whose value wraps that same exception and whose property `message` is exactly `m`.  A
default-constructed exception has the empty message. -/
theorem exception_message_fidelity (m : String) :
    (exception.ofMessage m).getMessage = m ∧
    (exception.ofMessage m).copyMessage = m ∧
    (exception.ofMessage m).what = c_str m ∧
    (Char.ofNat 0 ∉ m.data → (exception.ofMessage m).what = m) ∧
    exception.translateException (some exception.registerException) (exception.ofMessage m) =
      Result.ok ⟨exception.registerException, exception.ofMessage m⟩ ∧
    (∀ err, exception.translateException (some exception.registerException)
        (exception.ofMessage m) = Result.ok err →
      err.excValue = exception.ofMessage m ∧ err.getattr "message" = some m) ∧
    exception.new.getMessage = "" ∧ exception.new.copyMessage = "" ∧
    exception.new.what = "" := by
  refine ⟨rfl, rfl, rfl, fun h => c_str_of_no_nul m h, rfl, ?_, rfl, rfl, by decide⟩
  intro err h
  simp only [exception.translateException, Result.ok.injEq] at h
  subst h
  refine ⟨rfl, ?_⟩
  simp [PyErr.getattr, exception.registerException, List.lookup, exception.copyMessage,
    exception.getMessage, exception.ofMessage]

/-- The specification's instance, the message "dimension mismatch": an instance of
`exception_message_fidelity`. -/
theorem exception_message_fidelity_witness :
    (exception.ofMessage "dimension mismatch").what = "dimension mismatch" ∧
    (∀ err, exception.translateException (some exception.registerException)
        (exception.ofMessage "dimension mismatch") = Result.ok err →
      err.excValue = exception.ofMessage "dimension mismatch" ∧
        err.getattr "message" = some "dimension mismatch") :=
  ⟨(exception_message_fidelity "dimension mismatch").2.2.2.1 (by decide),
    (exception_message_fidelity "dimension mismatch").2.2.2.2.2.1⟩

/-! ## The order of the validator's checks -/

/-- C13: `EigenFromPy::convertible` runs its checks in the order array-ness,
dimensionality, element type code, alignment, and stops at the first that fails: the
diagnostic it writes is the one of the first failing check, whatever the later checks would
say.  A rejection writes exactly one diagnostic, an acceptance none, and the four
diagnostics are different texts. -/
theorem convertible_check_order {α : Type} (T : MatType) (obj : PyObject α) :
    (obj = PyObject.other → EigenFromPy.convertible T obj = (none, [msgNotArray])) ∧
    (∀ a, obj = PyObject.array a →
      ¬ (PyArray_NDIM a = 2 ∨ (PyArray_NDIM a = 1 ∧ T.IsVectorAtCompileTime = true)) →
      EigenFromPy.convertible T obj = (none, [msgDimension])) ∧
    (∀ a, obj = PyObject.array a →
      (PyArray_NDIM a = 2 ∨ (PyArray_NDIM a = 1 ∧ T.IsVectorAtCompileTime = true)) →
      a.type_num ≠ NumpyEquivalentType.type_code T.Scalar →
      EigenFromPy.convertible T obj = (none, [msgType])) ∧
    (∀ a, obj = PyObject.array a →
      (PyArray_NDIM a = 2 ∨ (PyArray_NDIM a = 1 ∧ T.IsVectorAtCompileTime = true)) →
      a.type_num = NumpyEquivalentType.type_code T.Scalar →
      a.flags.testBit 8 = false →
      EigenFromPy.convertible T obj = (none, [msgAligned])) ∧
    (∀ a, obj = PyObject.array a →
      (PyArray_NDIM a = 2 ∨ (PyArray_NDIM a = 1 ∧ T.IsVectorAtCompileTime = true)) →
      a.type_num = NumpyEquivalentType.type_code T.Scalar →
      a.flags.testBit 8 = true →
      EigenFromPy.convertible T obj = (some obj, [])) ∧
    ((EigenFromPy.convertible T obj).1 = none →
      (EigenFromPy.convertible T obj).2.length = 1) ∧
    ((EigenFromPy.convertible T obj).1 ≠ none → (EigenFromPy.convertible T obj).2 = []) ∧
    [msgNotArray, msgDimension, msgType, msgAligned].Nodup := by
  refine ⟨?_, ?_, ?_, ?_, ?_, ?_, ?_, by decide⟩
  · rintro rfl
    rfl
  · rintro a rfl hd
    have h1 : PyArray_NDIM a ≠ 2 ∧
        (PyArray_NDIM a ≠ 1 ∨ ¬ T.IsVectorAtCompileTime = true) := by
      push_neg at hd
      refine ⟨hd.1, ?_⟩
      by_cases h : PyArray_NDIM a = 1
      · exact Or.inr (hd.2 h)
      · exact Or.inl h
    simp only [EigenFromPy.convertible]
    rw [if_pos h1]
  · rintro a rfl hd ht
    have h1 : ¬ (PyArray_NDIM a ≠ 2 ∧
        (PyArray_NDIM a ≠ 1 ∨ ¬ T.IsVectorAtCompileTime = true)) := by
      rintro ⟨h2, h⟩
      rcases hd with hd | ⟨hd, hv⟩
      · exact h2 hd
      · rcases h with h | h
        · exact h hd
        · exact h hv
    simp only [EigenFromPy.convertible, PyArray_ObjectType]
    rw [if_neg h1, if_pos ht]
  · rintro a rfl hd ht hf
    have h1 : ¬ (PyArray_NDIM a ≠ 2 ∧
        (PyArray_NDIM a ≠ 1 ∨ ¬ T.IsVectorAtCompileTime = true)) := by
      rintro ⟨h2, h⟩
      rcases hd with hd | ⟨hd, hv⟩
      · exact h2 hd
      · rcases h with h | h
        · exact h hd
        · exact h hv
    have h3 : PyArray_FLAGS a &&& NPY_ALIGNED = 0 :=
      (and_aligned_eq_zero_iff a.flags).mpr hf
    simp only [EigenFromPy.convertible, PyArray_ObjectType]
    rw [if_neg h1, if_neg (not_not.mpr ht), if_pos h3]
  · rintro a rfl hd ht hf
    exact convertible_of_checks T a hd ht hf
  · intro h
    cases obj with
    | other => rfl
    | array a =>
      simp only [EigenFromPy.convertible] at h ⊢
      split_ifs at h ⊢ <;> rfl
  · intro h
    cases obj with
    | other => exact absurd rfl h
    | array a =>
      simp only [EigenFromPy.convertible] at h ⊢
      split_ifs at h ⊢ <;> first | rfl | exact absurd rfl h

/-! ## Transposition and storage order -/

/-- The view builder selected for a fully dynamic matrix type, on a well-formed
2-dimensional descriptor whose extents are below 2^31. -/
theorem map_dynamic {α : Type} (T : MatType) (a : PyArrayObject α) (e0 e1 : Nat)
    (s0 s1 : Int) (hr : T.RowsAtCompileTime = Dynamic) (hc : T.ColsAtCompileTime = Dynamic)
    (hd : a.dimensions = [e0, e1]) (hs : a.strides = [s0, s1]) (hi : a.itemsize ≠ 0)
    (he0 : e0 < 2147483648) (he1 : e1 < 2147483648) :
    MapNumpy.map T a =
      Result.ok ⟨e0, e1,
        ⟨toInt (Int.tdiv s1 a.itemsize), toInt (Int.tdiv s0 a.itemsize)⟩⟩ := by
  have hv : T.IsVectorAtCompileTime = false := by
    simp [MatType.IsVectorAtCompileTime, hr, hc, Dynamic]
  rw [map_of_not_vector T a hv]
  exact mapImpl0_ok T a e0 e1 s0 s1 hd hs hi he0 he1 ⟨Or.inl hr, Or.inl hc⟩

/-- The coefficient a 2-D view of a column-major type reads is the element NumPy addresses,
when the byte strides are multiples of the item size, their quotients by the item size are
in the range of `int`, and the items are scalars of the target type. -/
theorem coeff_eq_getitem2 {α : Type} (T : MatType) (a : PyArrayObject α) (e0 e1 : Nat)
    (s0 s1 : Int) (hs : a.strides = [s0, s1]) (hi : a.itemsize = T.Scalar.size)
    (hcol : T.IsRowMajor = false) (h0 : T.Scalar.size ∣ s0) (h1 : T.Scalar.size ∣ s1)
    (hq0 : InIntRange (Int.tdiv s0 T.Scalar.size))
    (hq1 : InIntRange (Int.tdiv s1 T.Scalar.size)) (i j : Nat) :
    some (EigenMap.coeff
        ⟨e0, e1, ⟨toInt (Int.tdiv s1 a.itemsize), toInt (Int.tdiv s0 a.itemsize)⟩⟩
        T a.data i j) = a.getitem2 i j := by
  simp only [PyArrayObject.getitem2, hs, EigenMap.coeff, EigenMap.offset, pyData, hi, hcol,
    toInt_of_range _ hq0, toInt_of_range _ hq1]
  have hk : ((i : Int) * Int.tdiv s0 T.Scalar.size + (j : Int) * Int.tdiv s1 T.Scalar.size) *
      T.Scalar.size = (i : Int) * s0 + (j : Int) * s1 := by
    rw [add_mul, mul_assoc, mul_assoc, Int.tdiv_mul_cancel h0, Int.tdiv_mul_cancel h1]
  simp [hk]

/-- C14, counterexample.  An aligned array of doubles of shape (2^31, 3) is accepted by the
validator for the fully dynamic matrix type, and `EigenFromPy::construct` does not return on
it: the extent is stored in an `int`, where it is negative.  And for the fully dynamic
row-major matrix type, the slice `base[::2, ::2]` and a column-major array that holds the
same logical 2 x 3 matrix convert to matrices that differ at `(0, 2)`. -/
theorem construct_transpose_fails :
    hugeArray31.dimensions = [2147483648, 3] ∧
    (EigenFromPy.convertible (MatrixX Scalar.double) (PyObject.array hugeArray31)).1 =
      some (PyObject.array hugeArray31) ∧
    EigenFromPy.construct (MatrixX Scalar.double) (PyObject.array hugeArray31) freshMemory
      zeroRaw = (Result.undefined, freshMemory) ∧
    RowMatrixXd.RowsAtCompileTime = Dynamic ∧ RowMatrixXd.ColsAtCompileTime = Dynamic ∧
    slicedArray.dimensions = [2, 3] ∧ fortranArray.dimensions = [2, 3] ∧
    (∀ i j, i < 2 → j < 3 → slicedArray.getitem2 i j = fortranArray.getitem2 i j) ∧
    ∃ wA wB : Mat Int,
      EigenFromPy.construct RowMatrixXd (PyObject.array slicedArray) freshMemory zeroRaw =
        (Result.ok (), ⟨Ptr.storage, some wA⟩) ∧
      EigenFromPy.construct RowMatrixXd (PyObject.array fortranArray) freshMemory zeroRaw =
        (Result.ok (), ⟨Ptr.storage, some wB⟩) ∧
      wA.coeff 0 2 = 192 ∧ wB.coeff 0 2 = 16 := by
  have hm : MapNumpy.map (MatrixX Scalar.double) hugeArray31 = Result.undefined := by
    rw [map_of_not_vector (MatrixX Scalar.double) hugeArray31 rfl,
      mapImpl0_eq (MatrixX Scalar.double) hugeArray31 2147483648 3 0 8 rfl rfl (by decide)]
    decide
  have hA := map_dynamic RowMatrixXd slicedArray 2 3 96 16 rfl rfl rfl rfl (by decide)
    (by decide) (by decide)
  have hB := map_dynamic RowMatrixXd fortranArray 2 3 8 16 rfl rfl rfl rfl (by decide)
    (by decide) (by decide)
  refine ⟨rfl, ?_, construct_of_map_undefined _ hugeArray31 freshMemory zeroRaw hm, rfl, rfl,
    rfl, rfl, ?_, _, _, construct_of_map_ok RowMatrixXd slicedArray freshMemory zeroRaw _ hA,
    construct_of_map_ok RowMatrixXd fortranArray freshMemory zeroRaw _ hB, by decide,
    by decide⟩
  · rw [convertible_of_checks (MatrixX Scalar.double) hugeArray31 (Or.inl rfl) rfl (by decide)]
  · intro i j hi hj
    interval_cases i <;> interval_cases j <;> decide

/-- C14, amended: for a 2-dimensional array `A` with a non-zero item size and extents below
2^31, and a fully dynamic matrix target type of either storage order,
`EigenFromPy::construct` returns on `A` and on the transposed array (the same data, the two
extents swapped and the two byte strides swapped), and the matrix of the transposed array
is the transpose of the matrix of `A`.  And for a column-major target type, every array `B`
that holds the same logical matrix as `A`, whatever its byte strides (row-major and
column-major order included), converts to a matrix equal to that of `A`, when the byte
strides of both are multiples of the item size with quotients in the range of `int` and the
items are scalars of the target type. -/
theorem construct_transpose {α : Type} (T : MatType) (A : PyArrayObject α) (e0 e1 : Nat)
    (s0 s1 : Int) (hr : T.RowsAtCompileTime = Dynamic) (hc : T.ColsAtCompileTime = Dynamic)
    (hd : A.dimensions = [e0, e1]) (hs : A.strides = [s0, s1])
    (hi : A.itemsize ≠ 0) (he0 : e0 < 2147483648) (he1 : e1 < 2147483648)
    (memory : rvalue_from_python_data α) (uninit : Raw α) :
    ∃ w : Mat α,
      EigenFromPy.construct T (PyObject.array A) memory uninit =
        (Result.ok (), ⟨Ptr.storage, some w⟩) ∧
      w.rows = e0 ∧ w.cols = e1 ∧
      (∃ wt : Mat α,
        EigenFromPy.construct T
            (PyObject.array { A with dimensions := [e1, e0], strides := [s1, s0] })
            memory uninit = (Result.ok (), ⟨Ptr.storage, some wt⟩) ∧
        wt.rows = e1 ∧ wt.cols = e0 ∧
        ∀ i j, i < e0 → j < e1 → wt.coeff j i = w.coeff i j) ∧
      (T.IsRowMajor = false →
        ∀ (B : PyArrayObject α) (b0 b1 : Int), B.dimensions = [e0, e1] →
        B.strides = [b0, b1] → A.itemsize = T.Scalar.size → B.itemsize = T.Scalar.size →
        T.Scalar.size ∣ s0 → T.Scalar.size ∣ s1 → T.Scalar.size ∣ b0 → T.Scalar.size ∣ b1 →
        InIntRange (Int.tdiv s0 T.Scalar.size) → InIntRange (Int.tdiv s1 T.Scalar.size) →
        InIntRange (Int.tdiv b0 T.Scalar.size) → InIntRange (Int.tdiv b1 T.Scalar.size) →
        (∀ i j, i < e0 → j < e1 → A.getitem2 i j = B.getitem2 i j) →
        ∃ wB : Mat α,
          EigenFromPy.construct T (PyObject.array B) memory uninit =
            (Result.ok (), ⟨Ptr.storage, some wB⟩) ∧
          wB.rows = e0 ∧ wB.cols = e1 ∧
          ∀ i j, i < e0 → j < e1 → wB.coeff i j = w.coeff i j) := by
  have hmA := map_dynamic T A e0 e1 s0 s1 hr hc hd hs hi he0 he1
  have hmT := map_dynamic T { A with dimensions := [e1, e0], strides := [s1, s0] } e1 e0 s1 s0
    hr hc rfl rfl hi he1 he0
  refine ⟨_, construct_of_map_ok T A memory uninit _ hmA, rfl, rfl, ?_, ?_⟩
  · refine ⟨_, construct_of_map_ok T _ memory uninit _ hmT, rfl, rfl, ?_⟩
    intro i j hi' hj'
    simp only [Mat.assignMap]
    rw [if_pos ⟨hj', hi'⟩, if_pos ⟨hi', hj'⟩]
    simp only [EigenMap.coeff, EigenMap.offset]
    split_ifs <;> rw [add_comm]
  · intro hcol B b0 b1 hBd hBs hAi hBi h0 h1 hb0 hb1 hq0 hq1 hqb0 hqb1 hsame
    have hmB := map_dynamic T B e0 e1 b0 b1 hr hc hBd hBs
      (by rw [hBi]; exact T.Scalar.size_ne_zero) he0 he1
    refine ⟨_, construct_of_map_ok T B memory uninit _ hmB, rfl, rfl, ?_⟩
    intro i j hi' hj'
    simp only [Mat.assignMap]
    rw [if_pos ⟨hi', hj'⟩, if_pos ⟨hi', hj'⟩]
    have hA := coeff_eq_getitem2 T A e0 e1 s0 s1 hs hAi hcol h0 h1 hq0 hq1 i j
    have hB := coeff_eq_getitem2 T B e0 e1 b0 b1 hBs hBi hcol hb0 hb1 hqb0 hqb1 i j
    rw [hsame i j hi' hj', ← hB] at hA
    exact (Option.some.inj hA).symm

/-- The slice `base[::2, ::2]`, its transpose, and a column-major array that holds the same
2 x 3 matrix: an instance of `construct_transpose`. -/
theorem construct_transpose_witness :
    ∃ w : Mat Int,
      EigenFromPy.construct (MatrixX Scalar.double) (PyObject.array slicedArray) freshMemory
          zeroRaw = (Result.ok (), ⟨Ptr.storage, some w⟩) ∧
      w.rows = 2 ∧ w.cols = 3 ∧
      (∃ wt : Mat Int,
        EigenFromPy.construct (MatrixX Scalar.double)
            (PyObject.array { slicedArray with dimensions := [3, 2], strides := [16, 96] })
            freshMemory zeroRaw = (Result.ok (), ⟨Ptr.storage, some wt⟩) ∧
        wt.rows = 3 ∧ wt.cols = 2 ∧
        ∀ i j, i < 2 → j < 3 → wt.coeff j i = w.coeff i j) ∧
      (∃ wB : Mat Int,
        EigenFromPy.construct (MatrixX Scalar.double) (PyObject.array fortranArray) freshMemory
            zeroRaw = (Result.ok (), ⟨Ptr.storage, some wB⟩) ∧
        wB.rows = 2 ∧ wB.cols = 3 ∧
        ∀ i j, i < 2 → j < 3 → wB.coeff i j = w.coeff i j) := by
  obtain ⟨w, h1, h2, h3, h4, h5⟩ := construct_transpose (MatrixX Scalar.double) slicedArray
    2 3 96 16 rfl rfl rfl rfl (by decide) (by decide) (by decide) freshMemory zeroRaw
  refine ⟨w, h1, h2, h3, h4, h5 rfl fortranArray 8 16 rfl rfl rfl rfl (by decide) (by decide)
    (by decide) (by decide) (by decide) (by decide) (by decide) (by decide) ?_⟩
  intro i j hi hj
  interval_cases i <;> interval_cases j <;> decide

/-! ## The vector view and the bounds of the buffer -/

/-- The vector view builder for the dynamically sized vector type, on a well-formed
2-dimensional descriptor whose larger extent is below 2^31. -/
theorem mapImpl1_vectorX {α : Type} (s : Scalar) (a : PyArrayObject α) (e0 e1 : Nat)
    (s0 s1 : Int) (hd : a.dimensions = [e0, e1]) (hs : a.strides = [s0, s1])
    (hi : a.itemsize ≠ 0) (hL : max e0 e1 < 2147483648) :
    MapNumpyTraits1.mapImpl (VectorX s) a =
      Result.ok ⟨max e0 e1, 1,
        InnerStride (toInt (Int.tdiv (if e0 > e1 then s0 else s1) a.itemsize))⟩ := by
  have hv : (VectorX s).IsVectorAtCompileTime = true := by
    simp [VectorX, MatType.IsVectorAtCompileTime]
  have h := map_vectorX s a e0 e1 s0 s1 hd hs hi hL
  rwa [map_of_vector _ _ hv] at h

/-- C15: evaluation at buffers with no element.  For `VectorXd` and an array of shape
(0, 1) the vector view has length 1, and for an array of shape (0, 3) it has length 3,
although both buffers have `0 * 1 = 0 * 3 = 0` elements: the length is the larger extent,
which is not bounded by the number of elements when an extent is 0. -/
theorem vector_view_exceeds_empty_buffer :
    array01.dimensions = [0, 1] ∧ array01.dimensions.prod = 0 ∧
    MapNumpyTraits1.mapImpl VectorXd array01 = Result.ok ⟨1, 1, InnerStride 1⟩ ∧
    array03.dimensions = [0, 3] ∧ array03.dimensions.prod = 0 ∧
    MapNumpyTraits1.mapImpl VectorXd array03 = Result.ok ⟨3, 1, InnerStride 1⟩ ∧
    ¬ (1 ≤ 0 * 1) ∧ ¬ (3 ≤ 0 * 3) := by
  refine ⟨rfl, rfl, ?_, rfl, rfl, ?_, by decide, by decide⟩
  · exact mapImpl1_vectorX Scalar.double array01 0 1 8 8 rfl rfl (by decide) (by decide)
  · exact mapImpl1_vectorX Scalar.double array03 0 3 24 8 rfl rfl (by decide) (by decide)

/-- The vector view stays inside a buffer that has an element: on a well-formed
2-dimensional descriptor with extents `1 ≤ e0 < 2^31` and `1 ≤ e1 < 2^31` the length of the
view for the dynamically sized vector type is at most `e0 * e1`. -/
theorem vector_view_inside_nonempty_buffer {α : Type} (s : Scalar) (a : PyArrayObject α)
    (e0 e1 : Nat) (s0 s1 : Int) (hd : a.dimensions = [e0, e1]) (hs : a.strides = [s0, s1])
    (hi : a.itemsize ≠ 0) (h0 : 1 ≤ e0) (h1 : 1 ≤ e1)
    (he0 : e0 < 2147483648) (he1 : e1 < 2147483648) :
    ∃ view, MapNumpyTraits1.mapImpl (VectorX s) a = Result.ok view ∧
      view.rows = max e0 e1 ∧ view.cols = 1 ∧ view.rows * view.cols ≤ e0 * e1 := by
  refine ⟨_, mapImpl1_vectorX s a e0 e1 s0 s1 hd hs hi (max_lt he0 he1), rfl, rfl, ?_⟩
  simp only [mul_one]
  apply max_le
  · exact Nat.le_mul_of_pos_right e0 (by omega)
  · exact Nat.le_mul_of_pos_left e1 (by omega)

/-! ## The tie-break of the vector layout -/

/-- C16, counterexample.  An aligned array of doubles of shape (2^32 + 3, 2) is accepted by
the validator for `VectorXd`, dimension 0 is selected, and `EigenFromPy::construct` returns
on it with a vector of 3 elements, not with the first column of the buffer, which has
2^32 + 3 elements: the selected extent is stored in an `int`. -/
theorem vector_first_column_truncated :
    hugeColumns.dimensions = [4294967299, 2] ∧
    MapNumpyTraits1.rowMajor hugeColumns = some 0 ∧
    (EigenFromPy.convertible (VectorX Scalar.double) (PyObject.array hugeColumns)).1 =
      some (PyObject.array hugeColumns) ∧
    MapNumpyTraits1.mapImpl (VectorX Scalar.double) hugeColumns =
      Result.ok ⟨3, 1, InnerStride 0⟩ ∧
    ∃ w : Mat Int,
      EigenFromPy.construct (VectorX Scalar.double) (PyObject.array hugeColumns) freshMemory
          zeroRaw = (Result.ok (), ⟨Ptr.storage, some w⟩) ∧
      w.rows = 3 ∧ w.rows ≠ 4294967299 := by
  have hm1 : MapNumpyTraits1.mapImpl (VectorX Scalar.double) hugeColumns =
      Result.ok ⟨3, 1, InnerStride 0⟩ := by
    rw [mapImpl1_eq (VectorX Scalar.double) hugeColumns (Or.inr rfl) rfl (by decide)]
    decide
  have hm : MapNumpy.map (VectorX Scalar.double) hugeColumns =
      Result.ok ⟨3, 1, InnerStride 0⟩ := by
    rw [map_of_vector (VectorX Scalar.double) hugeColumns rfl, hm1]
  refine ⟨rfl, by decide, ?_, hm1, _,
    construct_of_map_ok _ hugeColumns freshMemory zeroRaw _ hm, rfl, by decide⟩
  rw [convertible_of_checks (VectorX Scalar.double) hugeColumns (Or.inl rfl) rfl (by decide)]

/-- C16, amended: on a 2-dimensional descriptor with extents `(e0, e1)` the vector layout
selects dimension 0 exactly when `e0 > e1` and dimension 1 otherwise, so for equal extents
the view of the dynamically sized column vector type has the extent and the stride of
dimension 1, when the extents and the element strides are in the range of `int`.  The
validator accepts an aligned array of the element type whatever its extents, and a buffer
with both extents greater than 1 and below 2^31 is converted without error to a vector that
holds the first row of the buffer when `e0 ≤ e1` and its first column when `e0 > e1`, and
nothing else. -/
theorem vector_tie_break {α : Type} (s : Scalar) (a : PyArrayObject α) (e0 e1 : Nat)
    (s0 s1 : Int) (hd : a.dimensions = [e0, e1]) (hs : a.strides = [s0, s1])
    (hi : a.itemsize = s.size) (h0 : s.size ∣ s0) (h1 : s.size ∣ s1)
    (he0 : e0 < 2147483648) (he1 : e1 < 2147483648)
    (hq0 : InIntRange (Int.tdiv s0 s.size)) (hq1 : InIntRange (Int.tdiv s1 s.size))
    (ht : a.type_num = NumpyEquivalentType.type_code s) (hf : a.flags.testBit 8 = true)
    (memory : rvalue_from_python_data α) (uninit : Raw α) :
    (MapNumpyTraits1.rowMajor a = some 0 ↔ e0 > e1) ∧
    (MapNumpyTraits1.rowMajor a = some 1 ↔ ¬ e0 > e1) ∧
    (e0 > e1 → MapNumpyTraits1.mapImpl (VectorX s) a =
      Result.ok ⟨e0, 1, InnerStride (Int.tdiv s0 a.itemsize)⟩) ∧
    (¬ e0 > e1 → MapNumpyTraits1.mapImpl (VectorX s) a =
      Result.ok ⟨e1, 1, InnerStride (Int.tdiv s1 a.itemsize)⟩) ∧
    (e0 = e1 → MapNumpyTraits1.mapImpl (VectorX s) a =
      Result.ok ⟨e1, 1, InnerStride (Int.tdiv s1 a.itemsize)⟩) ∧
    (EigenFromPy.convertible (VectorX s) (PyObject.array a)).1 = some (PyObject.array a) ∧
    (1 < e0 → 1 < e1 →
      ∃ w : Mat α,
        EigenFromPy.construct (VectorX s) (PyObject.array a) memory uninit =
          (Result.ok (), ⟨Ptr.storage, some w⟩) ∧
        w.cols = 1 ∧ w.rows * w.cols < e0 * e1 ∧
        (e0 ≤ e1 → w.rows = e1 ∧ ∀ k, k < e1 → some (w.coeff k 0) = a.getitem2 0 k) ∧
        (e0 > e1 → w.rows = e0 ∧ ∀ k, k < e0 → some (w.coeff k 0) = a.getitem2 k 0)) := by
  have hi0 : a.itemsize ≠ 0 := by rw [hi]; exact s.size_ne_zero
  have hm := mapImpl1_vectorX s a e0 e1 s0 s1 hd hs hi0 (max_lt he0 he1)
  have hrow : MapNumpyTraits1.rowMajor a = some (if e0 > e1 then 0 else 1) := by
    simp [MapNumpyTraits1.rowMajor, PyArray_NDIM, PyArray_DIMS, hd]
  have hgt : e0 > e1 → MapNumpyTraits1.mapImpl (VectorX s) a =
      Result.ok ⟨e0, 1, InnerStride (Int.tdiv s0 a.itemsize)⟩ := by
    intro h
    rw [hm, if_pos h, max_eq_left (le_of_lt h), hi, toInt_of_range _ hq0]
  have hle : ¬ e0 > e1 → MapNumpyTraits1.mapImpl (VectorX s) a =
      Result.ok ⟨e1, 1, InnerStride (Int.tdiv s1 a.itemsize)⟩ := by
    intro h
    rw [hm, if_neg h, max_eq_right (not_lt.mp h), hi, toInt_of_range _ hq1]
  have hcolT : (VectorX s).IsRowMajor = false := rfl
  have hS : (VectorX s).Scalar = s := rfl
  refine ⟨?_, ?_, hgt, hle, fun h => hle (by omega), ?_, ?_⟩
  · rw [hrow]
    by_cases h : e0 > e1 <;> simp [h]
  · rw [hrow]
    by_cases h : e0 > e1 <;> simp [h]
  · rw [convertible_of_checks (VectorX s) a (Or.inl (by rw [PyArray_NDIM, hd]; rfl)) ht hf]
  · intro h0' h1'
    have hv : (VectorX s).IsVectorAtCompileTime = true := by
      simp [VectorX, MatType.IsVectorAtCompileTime]
    have hmap : MapNumpy.map (VectorX s) a = MapNumpyTraits1.mapImpl (VectorX s) a :=
      map_of_vector _ _ hv
    by_cases h : e0 > e1
    · have hc := construct_of_map_ok (VectorX s) a memory uninit _ (hmap.trans (hgt h))
      refine ⟨_, hc, rfl, ?_, fun hle' => absurd h (by omega), fun _ => ⟨rfl, ?_⟩⟩
      · simp only [Mat.assignMap, mul_one]
        nlinarith [Nat.mul_le_mul (show 1 ≤ e0 by omega) (show 2 ≤ e1 by omega)]
      · intro k hk
        simp only [Mat.assignMap]
        rw [if_pos ⟨hk, by omega⟩]
        simp only [PyArrayObject.getitem2, hs, EigenMap.coeff, EigenMap.offset, pyData,
          InnerStride, hcolT, Bool.false_eq_true, if_false, hi]
        congr 2
        rw [hS, add_mul, mul_assoc, Int.tdiv_mul_cancel h0]
        simp
    · have hc := construct_of_map_ok (VectorX s) a memory uninit _ (hmap.trans (hle h))
      refine ⟨_, hc, rfl, ?_, fun _ => ⟨rfl, ?_⟩, fun hgt' => absurd hgt' h⟩
      · simp only [Mat.assignMap, mul_one]
        nlinarith [Nat.mul_le_mul (show 2 ≤ e0 by omega) (show 1 ≤ e1 by omega)]
      · intro k hk
        simp only [Mat.assignMap]
        rw [if_pos ⟨hk, by omega⟩]
        simp only [PyArrayObject.getitem2, hs, EigenMap.coeff, EigenMap.offset, pyData,
          InnerStride, hcolT, Bool.false_eq_true, if_false, hi]
        congr 2
        rw [hS, add_mul, mul_assoc, Int.tdiv_mul_cancel h1]
        simp

/-- A 2 x 2 array, whose extents are equal, against `VectorXd`: an instance of
`vector_tie_break`.  Dimension 1 is selected and the vector holds the first row. -/
theorem vector_tie_break_witness :
    MapNumpyTraits1.rowMajor array22 = some 1 ∧
    (EigenFromPy.convertible (VectorX Scalar.double) (PyObject.array array22)).1 =
      some (PyObject.array array22) ∧
    ∃ w : Mat Int,
      EigenFromPy.construct (VectorX Scalar.double) (PyObject.array array22) freshMemory
          zeroRaw = (Result.ok (), ⟨Ptr.storage, some w⟩) ∧
      w.cols = 1 ∧ w.rows = 2 ∧
      ∀ k, k < 2 → some (w.coeff k 0) = array22.getitem2 0 k := by
  have h := vector_tie_break Scalar.double array22 2 2 16 8 rfl rfl rfl (by decide) (by decide)
    (by decide) (by decide) (by decide) (by decide) rfl (by decide) freshMemory zeroRaw
  obtain ⟨w, hw, hc, _, hrow, _⟩ := h.2.2.2.2.2.2 (by decide) (by decide)
  exact ⟨h.2.1.mpr (by decide), h.2.2.2.2.2.1, w, hw, hc, (hrow (le_refl 2)).1,
    (hrow (le_refl 2)).2⟩

end eigenpy
